import Mathlib

/-!
# Verification of the agentic-event-orchestrator planning pipeline

Shallow embedding of the planning-and-execution pipeline of the
`agentic-event-orchestrator` repository, and proofs of the claims about it.

Conventions used throughout the embedding:
* ISO datetime strings are represented by their timestamp value in minutes
  since the Unix epoch (UTC), as an `Int`.  `new Date(s).getTime()`
  composed with the comparisons the code performs is faithfully captured by
  integer comparison of these values.
* JS numbers that carry money, scores or durations are represented as `ℚ`.
* `HH:MM` time-of-day strings are represented by their hour/minute pair in
  canonical zero-padded rendering; string equality of canonical renderings
  is pair equality.
* Warnings are pushed by the code as interpolated message strings; each
  push site is represented by a distinct constructor of an inductive type
  carrying the interpolated data, since only the identity and presence of
  a warning is ever observed.
-/

set_option maxRecDepth 10000

namespace Orchestrator

/-- The apostrophe character, built numerically so it can be embedded in
string data (e.g. the phrase `you're going`). -/
def apos : Char := Char.ofNat 39

/-- Lowercase a string character-wise (JS `String.prototype.toLowerCase`,
restricted to the ASCII range the code relies on). -/
def toLowerStr (s : String) : String := String.mk (s.toList.map Char.toLower)

/-- ASCII lowercase letter test (`[a-z]`). -/
def isAsciiLower (c : Char) : Bool := 'a' ≤ c && c ≤ 'z'

/-- Regex `\s` whitespace class, as used by the normalizers. -/
def isWsChar (c : Char) : Bool := c.isWhitespace

/-- Collapse consecutive spaces into one (second pass of `replace(/\s+/g, ' ')`). -/
def squeezeSpaces : List Char → List Char
  | [] => []
  | [c] => [c]
  | a :: b :: t => if a = ' ' && b = ' ' then squeezeSpaces (b :: t) else a :: squeezeSpaces (b :: t)

/-- Drop spaces from both ends (JS `trim` on an already space-only-whitespace string). -/
def trimSpaces (l : List Char) : List Char :=
  ((l.dropWhile (· = ' ')).reverse.dropWhile (· = ' ')).reverse

/-- `normalizeText` (src/unnamed/part_004) and `normalize` (src/unnamed/part_006),
which have the same body: lowercase, strip characters outside `[a-z0-9\s]`,
collapse whitespace runs to a single space, trim. -/
def normalizeText (s : String) : String :=
  let lowered := s.toList.map Char.toLower
  let kept := lowered.filter (fun c => isAsciiLower c || c.isDigit || isWsChar c)
  let spaced := kept.map (fun c => if isWsChar c then ' ' else c)
  String.mk (trimSpaces (squeezeSpaces spaced))

/-- `normalizeUrl` (src/unnamed/part_006): strip the query string, strip
trailing slashes, lowercase. -/
def normalizeUrl (url : String) : String :=
  toLowerStr (String.mk (((url.toList.takeWhile (· ≠ '?')).reverse.dropWhile (· = '/')).reverse))

/-- One DP step of the two-row longest-common-subsequence computation of
`similarity` (src/unnamed/part_004): given the previous row (headed by
`prev[j-1]`, then the remaining `prev[j..]` cells) and the current `curr[j-1]`
value, produce the row cells `curr[j..]` for the characters `b`. -/
def lcsStep (x : Char) : List Char → List Nat → Nat → Nat → List Nat
  | [], _, _, _ => []
  | _, [], _, _ => []
  | c :: cs, pj :: prest, diag, left =>
    let cur := if c = x then diag + 1 else max pj left
    cur :: lcsStep x cs prest pj cur

/-- Advance the LCS DP by one character of `a` (the `prev`→`curr` row update). -/
def lcsNextRow (b : List Char) (prev : List Nat) (x : Char) : List Nat :=
  match prev with
  | [] => []
  | p0 :: prest => 0 :: lcsStep x b prest p0 0

/-- Longest-common-subsequence length of two character lists, computed with
the same two-row DP as the source. -/
def lcsLen (a b : List Char) : Nat :=
  (a.foldl (lcsNextRow b) (List.replicate (b.length + 1) 0)).getLastD 0

/-- `similarity` (src/unnamed/part_004): LCS length over max length, `1` for
equal strings, `0` when either string is empty. -/
def similarity (a b : String) : ℚ :=
  if a = b then 1
  else if a = "" || b = "" then 0
  else (lcsLen a.toList b.toList : ℚ) / (max a.length b.length : ℚ)

/-- `NAME_SIMILARITY_THRESHOLD` (src/unnamed/part_004). -/
def NAME_SIMILARITY_THRESHOLD : ℚ := 3 / 4

-- ============================================
-- Data model (types/index, spec §3)
-- ============================================

/-- An event's time slot; `start`/`finish` are the `start`/`end` ISO strings
represented as minutes since epoch UTC (`finish` because `end` is a Lean
keyword). -/
structure TimeSlot where
  start : Int
  finish : Int
deriving DecidableEq, Repr

/-- Price range. -/
structure Price where
  min : ℚ
  max : ℚ
  currency : String
deriving DecidableEq, Repr

/-- Event location. -/
structure EventLocation where
  name : String
  address : String
  lat : ℚ
  lng : ℚ
deriving DecidableEq, Repr

/-- The domain `Event` (spec §3; fields as used by the tools, including the
`imageUrl`/`reviewCount` fields read by the dedup completeness score).
`category`, `availability` and `source` are closed string enums in the
source and are represented as strings. -/
structure Event where
  id : String
  name : String
  description : String
  category : String
  location : EventLocation
  timeSlot : TimeSlot
  price : Option Price
  rating : Option ℚ
  sourceUrl : Option String
  source : String
  imageUrl : Option String
  reviewCount : Option Nat
  availability : String
  bookingRequired : Bool
deriving DecidableEq, Repr

-- ============================================
-- Deduplicator (src/unnamed/part_002, src/unnamed/part_004)
-- ============================================

/-- `hasTimeOverlap` (src/unnamed/part_004): strict interval overlap of the
two time slots. -/
def hasTimeOverlap (a b : Event) : Bool :=
  a.timeSlot.start < b.timeSlot.finish && b.timeSlot.start < a.timeSlot.finish

/-- `scoreEventCompleteness` (src/unnamed/part_004).  JS truthiness: a present
`imageUrl` only counts when non-empty; `reviewCount` counts when present and
positive. -/
def scoreEventCompleteness (e : Event) : Nat :=
  (if e.price.isSome then 2 else 0) +
  (if e.rating.isSome then 2 else 0) +
  (if (match e.imageUrl with | some s => s ≠ "" | none => false : Bool) then 1 else 0) +
  (if (match e.reviewCount with | some n => decide (0 < n) | none => false : Bool) then 1 else 0) +
  (if 50 < e.description.length then 1 else 0)

/-- `hasSameUrl` (src/unnamed/part_002): both URLs present and truthy
(non-empty) and equal after normalization. -/
def hasSameUrl (a b : Event) : Bool :=
  match a.sourceUrl, b.sourceUrl with
  | some x, some y => x ≠ "" && y ≠ "" && normalizeUrl x = normalizeUrl y
  | _, _ => false

/-- The duplicate test of `deduplicateEventsTool` (src/unnamed/part_002,
line 67): same URL, or similar normalized name with overlapping time. -/
def isDuplicate (best candidate : Event) : Bool :=
  hasSameUrl best candidate ||
    (decide (NAME_SIMILARITY_THRESHOLD ≤ similarity (normalizeText best.name) (normalizeText candidate.name))
      && hasTimeOverlap best candidate)

/-- The inner `j` loop of `deduplicateEventsTool`: scan the not-yet-merged
later events against the running `best`; duplicates are merged away (and may
replace `best` when strictly more complete), non-duplicates survive for the
outer loop.  Returns the final `best` together with the surviving later
events in order. -/
def scanGroup (best : Event) : List Event → Event × List Event
  | [] => (best, [])
  | c :: cs =>
    if isDuplicate best c then
      scanGroup (if scoreEventCompleteness best < scoreEventCompleteness c then c else best) cs
    else
      let r := scanGroup best cs
      (r.1, c :: r.2)

theorem scanGroup_length_le (best : Event) (l : List Event) :
    (scanGroup best l).2.length ≤ l.length := by
  induction l generalizing best with
  | nil => simp [scanGroup]
  | cons c cs ih =>
    simp only [scanGroup]
    split
    · exact Nat.le_succ_of_le (ih _)
    · simpa using Nat.succ_le_succ (ih best)

/-- The outer `i` loop of `deduplicateEventsTool`, with an explicit fuel
argument (the list length bounds the recursion depth, which keeps the
definition structurally recursive and hence kernel-reducible): emit each
group's survivor and continue with the events not merged into it. -/
def dedupeMergedFuel : Nat → List Event → List Event
  | _, [] => []
  | 0, l => l
  | fuel + 1, e :: rest =>
    let r := scanGroup e rest
    r.1 :: dedupeMergedFuel fuel r.2

/-- The outer `i` loop of `deduplicateEventsTool`. -/
def dedupeMerged (l : List Event) : List Event := dedupeMergedFuel l.length l

theorem dedupeMergedFuel_congr : ∀ (f₁ f₂ : Nat) (l : List Event),
    l.length ≤ f₁ → l.length ≤ f₂ → dedupeMergedFuel f₁ l = dedupeMergedFuel f₂ l := by
  intro f₁
  induction f₁ using Nat.strong_induction_on with
  | _ f₁ ih =>
    intro f₂ l h1 h2
    cases l with
    | nil => cases f₁ <;> cases f₂ <;> rfl
    | cons e rest =>
      cases f₁ with
      | zero => simp at h1
      | succ f =>
        cases f₂ with
        | zero => simp at h2
        | succ g =>
          simp only [dedupeMergedFuel]
          have hf : (scanGroup e rest).2.length ≤ f :=
            le_trans (scanGroup_length_le e rest) (by simpa using h1)
          have hg : (scanGroup e rest).2.length ≤ g :=
            le_trans (scanGroup_length_le e rest) (by simpa using h2)
          rw [ih f (Nat.lt_succ_self f) g _ hf hg]

theorem dedupeMerged_cons (e : Event) (rest : List Event) :
    dedupeMerged (e :: rest) = (scanGroup e rest).1 :: dedupeMerged (scanGroup e rest).2 := by
  unfold dedupeMerged
  simp only [List.length_cons, dedupeMergedFuel]
  rw [dedupeMergedFuel_congr rest.length (scanGroup e rest).2.length _
    (scanGroup_length_le e rest) (le_refl _)]

/-- Output of `deduplicateEventsTool` (src/unnamed/part_002). -/
structure DedupOutput where
  events : List Event
  originalCount : Nat
  deduplicatedCount : Nat
  removedCount : Nat
deriving DecidableEq, Repr

/-- `deduplicateEventsTool.execute` (src/unnamed/part_002): lists of at most
one event are returned unchanged; otherwise the merge loop runs and the
counts are reported. -/
def deduplicateEventsTool (events : List Event) : DedupOutput :=
  if events.length ≤ 1 then
    ⟨events, events.length, events.length, 0⟩
  else
    let result := dedupeMerged events
    ⟨result, events.length, result.length, events.length - result.length⟩

-- ============================================
-- Deduplicator analysis
-- ============================================

/-- Reference formulation of the merge loop for the case in which the
running `best` is never replaced: keep the head, drop its duplicates, and
continue on the remainder. -/
def pd : List Event → List Event
  | [] => []
  | e :: rest => e :: pd (rest.filter (fun c => !(isDuplicate e c)))
termination_by l => l.length
decreasing_by
  simp only [List.length_cons]
  exact Nat.lt_succ_of_le (List.length_filter_le _ _)

theorem scanGroup_no_replace (best : Event) (cs : List Event)
    (h : ∀ c ∈ cs, ¬ scoreEventCompleteness best < scoreEventCompleteness c) :
    scanGroup best cs = (best, cs.filter (fun c => !(isDuplicate best c))) := by
  induction cs with
  | nil => simp [scanGroup]
  | cons c cs ih =>
    have ih' := ih (fun x hx => h x (List.mem_cons_of_mem _ hx))
    by_cases hd : isDuplicate best c
    · have hrepl : ¬ scoreEventCompleteness best < scoreEventCompleteness c :=
        h c (List.mem_cons_self _ _)
      simp [scanGroup, List.filter_cons, hd, hrepl, ih']
    · simp [scanGroup, List.filter_cons, hd, ih']

theorem mem_of_mem_pd : ∀ (l : List Event), ∀ a ∈ pd l, a ∈ l := by
  intro l
  induction l using pd.induct with
  | case1 => simp [pd]
  | case2 e rest ih =>
    intro a ha
    rw [pd] at ha
    rcases List.mem_cons.mp ha with h | h
    · exact h ▸ List.mem_cons_self _ _
    · exact List.mem_cons_of_mem _ (List.mem_of_mem_filter (ih a h))

theorem pd_pairwise : ∀ (l : List Event), (pd l).Pairwise (fun a b => isDuplicate a b = false) := by
  intro l
  induction l using pd.induct with
  | case1 => simp [pd]
  | case2 e rest ih =>
    rw [pd]
    refine List.Pairwise.cons ?_ ih
    intro b hb
    have hbf := mem_of_mem_pd _ b hb
    have := List.of_mem_filter hbf
    simpa using this

theorem pd_of_pairwise : ∀ (l : List Event),
    l.Pairwise (fun a b => isDuplicate a b = false) → pd l = l := by
  intro l
  induction l with
  | nil => simp [pd]
  | cons e rest ih =>
    intro hp
    rw [pd]
    have hall : ∀ b ∈ rest, (!(isDuplicate e b)) = true := by
      intro b hb
      have := (List.pairwise_cons.mp hp).1 b hb
      simp [this]
    rw [List.filter_eq_self.mpr hall, ih (List.pairwise_cons.mp hp).2]

theorem dedupeMerged_eq_pd : ∀ (l : List Event),
    (∀ a ∈ l, ∀ b ∈ l, scoreEventCompleteness a = scoreEventCompleteness b) →
    dedupeMerged l = pd l := by
  intro l
  induction l using pd.induct with
  | case1 => simp [dedupeMerged, dedupeMergedFuel, pd]
  | case2 e rest ih =>
    intro h
    rw [dedupeMerged_cons, pd]
    have hs : scanGroup e rest = (e, rest.filter (fun c => !(isDuplicate e c))) := by
      refine scanGroup_no_replace e rest ?_
      intro c hc
      rw [h e (List.mem_cons_self _ _) c (List.mem_cons_of_mem _ hc)]
      exact Nat.lt_irrefl _
    rw [hs]
    simp only [List.cons.injEq, true_and]
    exact ih (fun a ha b hb =>
      h a (List.mem_cons_of_mem _ (List.mem_of_mem_filter ha))
        b (List.mem_cons_of_mem _ (List.mem_of_mem_filter hb)))

/-- C1, amended.  When every event carries the same completeness score the
survivor-replacement step never fires, and a second run of the deduplicator
on its own merged output is a no-op that removes nothing. -/
theorem dedupe_idempotent_of_equal_completeness (x : List Event)
    (H : ∀ a ∈ x, ∀ b ∈ x, scoreEventCompleteness a = scoreEventCompleteness b) :
    (deduplicateEventsTool (deduplicateEventsTool x).events).events
        = (deduplicateEventsTool x).events ∧
    (deduplicateEventsTool (deduplicateEventsTool x).events).removedCount = 0 := by
  unfold deduplicateEventsTool
  by_cases h1 : x.length ≤ 1
  · simp [h1]
  · simp only [h1, if_false]
    have hm : dedupeMerged x = pd x := dedupeMerged_eq_pd x H
    by_cases h2 : (dedupeMerged x).length ≤ 1
    · simp [h2]
    · simp only [h2, if_false]
      have hmm : dedupeMerged (dedupeMerged x) = dedupeMerged x := by
        have Hm : ∀ a ∈ dedupeMerged x, ∀ b ∈ dedupeMerged x,
            scoreEventCompleteness a = scoreEventCompleteness b := by
          intro a ha b hb
          rw [hm] at ha hb
          exact H a (mem_of_mem_pd x a ha) b (mem_of_mem_pd x b hb)
        rw [dedupeMerged_eq_pd _ Hm, hm, pd_of_pairwise _ (pd_pairwise x)]
      constructor
      · simp [hmm]
      · simp [hmm]

section DecideEval

-- The Batteries rational-number operations are `@[irreducible]`; they are
-- made reducible locally so that concrete instances can be settled by `decide`.
attribute [local semireducible] Rat.mul Rat.inv Rat.add Rat.sub Rat.ofScientific

/-- Witness for the amended C1 theorem: the two-URL-variants example of
spec §8, in which both events have completeness score 0. -/
def witUrlEvent1 : Event :=
  { id := "w1", name := "x", description := "", category := "other",
    location := ⟨"", "", 0, 0⟩, timeSlot := ⟨0, 100⟩, price := none,
    rating := none, sourceUrl := some "x.com/e?ref=1", source := "eventbrite",
    imageUrl := none, reviewCount := none, availability := "available",
    bookingRequired := false }

def witUrlEvent2 : Event :=
  { witUrlEvent1 with
    id := "w2"
    name := "y"
    sourceUrl := some "x.com/e/" }

theorem dedupe_idempotent_witness :
    (deduplicateEventsTool (deduplicateEventsTool [witUrlEvent1, witUrlEvent2]).events).events
        = (deduplicateEventsTool [witUrlEvent1, witUrlEvent2]).events ∧
    (deduplicateEventsTool (deduplicateEventsTool [witUrlEvent1, witUrlEvent2]).events).removedCount = 0 :=
  dedupe_idempotent_of_equal_completeness [witUrlEvent1, witUrlEvent2] (by decide)

/-- Counterexample data for C1 as stated.  `cexEventA` and `cexEventC` share
a source URL; `cexEventC` and `cexEventB` have similar names and overlapping
times; `cexEventC` is more complete than `cexEventA`. -/
def cexEventA : Event :=
  { id := "a", name := "zz", description := "", category := "other",
    location := ⟨"", "", 0, 0⟩, timeSlot := ⟨0, 100⟩, price := none,
    rating := none, sourceUrl := some "u", source := "eventbrite",
    imageUrl := none, reviewCount := none, availability := "available",
    bookingRequired := false }

def cexEventB : Event :=
  { cexEventA with
    id := "b"
    name := "abcd"
    sourceUrl := some "v" }

def cexEventC : Event :=
  { cexEventA with
    id := "c"
    name := "abcde"
    sourceUrl := some "u"
    price := some ⟨0, 0, "SGD"⟩ }

/-- C1 counterexample: on `[A, B, C]` the first run replaces the survivor of
the URL-duplicate group `{A, C}` by `C` after `B` has already been compared
(only) against `A`, so the merged output `[C, B]` still contains a duplicate
pair, and the second run removes one more event instead of being a no-op. -/
theorem dedupe_not_idempotent_cex :
    (deduplicateEventsTool [cexEventA, cexEventB, cexEventC]).events = [cexEventC, cexEventB] ∧
    (deduplicateEventsTool (deduplicateEventsTool [cexEventA, cexEventB, cexEventC]).events).events
        = [cexEventC] ∧
    (deduplicateEventsTool (deduplicateEventsTool [cexEventA, cexEventB, cexEventC]).events).removedCount = 1 := by
  decide

end DecideEval

-- ============================================
-- Itinerary Scheduler (planItineraryTool, src/unnamed/part_006)
-- ============================================

/-- JS `trim` (both normalizers only ever leave ASCII whitespace). -/
def trimStr (s : String) : String :=
  String.mk (((s.toList.dropWhile isWsChar).reverse.dropWhile isWsChar).reverse)

/-- An `HH:MM` 24h time string in its canonical zero-padded rendering,
represented by the hour and minute values; equality of the pairs is equality
of the canonical strings. -/
structure HHMM where
  h : Nat
  m : Nat
deriving DecidableEq, Repr

/-- `parseTime` (src/unnamed/part_006): minutes since midnight. -/
def parseTime (t : HHMM) : Nat := t.h * 60 + t.m

/-- `formatTime` (src/unnamed/part_006): minutes since midnight back to `HH:MM`
(the hour is reduced mod 24 as in the source). -/
def formatTime (minutes : Nat) : HHMM := ⟨minutes / 60 % 24, minutes % 60⟩

/-- `SGT_OFFSET_MINUTES` (src/unnamed/part_006): UTC+8 in minutes. -/
def SGT_OFFSET_MINUTES : Nat := 8 * 60

/-- `extractTimeFromISO` (src/unnamed/part_006): SGT `HH:MM` of an ISO
datetime (represented as minutes since epoch UTC). -/
def extractTimeFromISO (dt : Int) : HHMM :=
  let utcMinutes := (dt % 1440).toNat
  formatTime ((utcMinutes + SGT_OFFSET_MINUTES) % 1440)

/-- `buildDatetime` (src/unnamed/part_006): ISO datetime for an `HH:MM` SGT
time on a date, converting SGT to UTC.  `dayStart` is the datetime value of
`T00:00:00Z` of the date; the source's previous-day rollback branch is plain
integer subtraction in this representation. -/
def buildDatetime (dayStart : Int) (t : HHMM) : Int :=
  dayStart + (parseTime t : Int) - (SGT_OFFSET_MINUTES : Int)

/-- `mapTravelMode` (src/unnamed/part_006). -/
def mapTravelMode (mode : String) : Option String :=
  if mode = "walk" then some "walk"
  else if mode = "mrt" || mode = "bus" then some "public_transport"
  else if mode = "taxi" then some "taxi"
  else if mode = "none" then none
  else some "walk"

/-- `MAX_ITINERARY_ITEMS` (src/unnamed/part_006). -/
def MAX_ITINERARY_ITEMS : Nat := 4

/-- `HARD_END_CUTOFF_MINUTES` (src/unnamed/part_006): 23:00. -/
def HARD_END_CUTOFF_MINUTES : Nat := 23 * 60

/-- `MAX_GAP_MINUTES` (src/unnamed/part_006). -/
def MAX_GAP_MINUTES : Int := 45

/-- `MAX_PLAN_SPAN_HOURS` (src/unnamed/part_006). -/
def MAX_PLAN_SPAN_HOURS : Int := 8

-- ── Stable sorting (JS `Array.prototype.sort` with a numeric comparator
-- is stable; modelled by stable insertion sort on the comparator's key) ──

/-- Insert an element into a sorted list, before the first element with a
key not smaller than its own (so that, used by `sortByKey`, elements that
compare equal keep their original relative order). -/
def insertByKey {α β : Type} [LinearOrder β] (key : α → β) (x : α) : List α → List α
  | [] => [x]
  | y :: ys => if key x ≤ key y then x :: y :: ys else y :: insertByKey key x ys

/-- Stable sort by a key. -/
def sortByKey {α β : Type} [LinearOrder β] (key : α → β) : List α → List α
  | [] => []
  | x :: xs => insertByKey key x (sortByKey key xs)

theorem mem_insertByKey {α β : Type} [LinearOrder β] (key : α → β) (x a : α) :
    ∀ (l : List α), a ∈ insertByKey key x l ↔ a = x ∨ a ∈ l := by
  intro l
  induction l with
  | nil => simp [insertByKey]
  | cons y ys ih =>
    simp only [insertByKey]
    split
    · simp
    · simp only [List.mem_cons, ih]
      tauto

theorem mem_sortByKey {α β : Type} [LinearOrder β] (key : α → β) (a : α) :
    ∀ (l : List α), a ∈ sortByKey key l ↔ a ∈ l := by
  intro l
  induction l with
  | nil => simp [sortByKey]
  | cons x xs ih =>
    simp only [sortByKey, mem_insertByKey, ih, List.mem_cons]

theorem length_insertByKey {α β : Type} [LinearOrder β] (key : α → β) (x : α) :
    ∀ (l : List α), (insertByKey key x l).length = l.length + 1 := by
  intro l
  induction l with
  | nil => rfl
  | cons y ys ih =>
    simp only [insertByKey]
    split
    · rfl
    · simp [ih]

theorem length_sortByKey {α β : Type} [LinearOrder β] (key : α → β) :
    ∀ (l : List α), (sortByKey key l).length = l.length := by
  intro l
  induction l with
  | nil => rfl
  | cons x xs ih => simp [sortByKey, length_insertByKey, ih]

-- ── LLM plan schema (`LLMPlanItemSchema` / `LLMPlanSchema`) ──

/-- `travelFromPrevious` of `LLMPlanItemSchema`. -/
structure TravelFromPrevious where
  durationMinutes : ℚ
  mode : String
  description : String
deriving DecidableEq, Repr

/-- `location` of `LLMPlanItemSchema`. -/
structure PlanItemLocation where
  name : String
  address : String
  area : Option String
deriving DecidableEq, Repr

/-- A draft plan item as validated by `LLMPlanItemSchema`
(src/unnamed/part_006): the schema constrains `startTime`/`endTime` only to
be strings documented as `HH:MM`; they are represented here by their parsed
hour/minute pair. -/
structure LLMPlanItem where
  name : String
  description : String
  category : String
  isMainEvent : Bool
  startTime : HHMM
  endTime : HHMM
  durationMinutes : ℚ
  location : PlanItemLocation
  estimatedCostPerPerson : ℚ
  priceCategory : String
  travelFromPrevious : Option TravelFromPrevious
  vibeNotes : Option String
  bookingRequired : Bool
  sourceUrl : Option String
deriving DecidableEq, Repr

/-- A draft plan as validated by `LLMPlanSchema` (src/unnamed/part_006). -/
structure LLMPlan where
  itineraryName : String
  items : List LLMPlanItem
  totalEstimatedCostPerPerson : ℚ
  budgetStatus : String
  budgetNotes : Option String
  overallVibe : Option String
  practicalTips : Option (List String)
  weatherConsideration : Option String
deriving DecidableEq, Repr

/-- A ranked event (`RankedEvent` in src/unnamed/part_006). -/
structure RankedEvent where
  event : Event
  score : ℚ
  reasoning : Option String
deriving DecidableEq, Repr

-- ── Warnings ──

/-- The warning messages pushed by `planItineraryTool` and the pipeline
steps; one constructor per push site, carrying the interpolated data. -/
inductive Warning where
  | itemCap (generated maxItems : Nat)
  | unmatchedMain (name : String)
  | timeCorrection (name : String) (draftStart draftEnd realStart realEnd : HHMM)
  | timeOverlap (prevName : Option String) (prevEnd : HHMM) (name : String) (start : HHMM)
  | tightTransition (gap : Int) (prevName : Option String) (name : String) (travel : ℚ)
  | excessiveGap (gap : Int) (prevName : Option String) (prevEnd : HHMM) (name : String) (start : HHMM)
  | droppedPastCutoff (name : String) (endTime : HHMM)
  | mainPastCutoff (name : String) (endTime : HHMM)
  | planSpanTooLong
  | budgetOverrun (total budget : ℚ)
  | slightlyOverBudget (total budget : ℚ)
  | planRejected
deriving DecidableEq, Repr

-- ── Fuzzy event matching (`normalize`, `fuzzyMatchEvent`) ──

/-- Substring containment on character lists (JS `String.prototype.includes`). -/
def listContains (big small : List Char) : Bool :=
  big.tails.any (fun t => small.isPrefixOf t)

/-- `big.includes(small)`. -/
def strContains (big small : String) : Bool := listContains big.toList small.toList

/-- JS `split(sep)` on a character list. -/
def splitChar (sep : Char) : List Char → List (List Char)
  | [] => [[]]
  | c :: cs =>
    let r := splitChar sep cs
    if c = sep then [] :: r
    else
      match r with
      | [] => [[c]]
      | w :: ws => (c :: w) :: ws

/-- Distinct elements in first-occurrence order (JS `new Set(array)`). -/
def dedupAux {α : Type} [DecidableEq α] (seen : List α) : List α → List α
  | [] => []
  | x :: xs => if x ∈ seen then dedupAux seen xs else x :: dedupAux (x :: seen) xs

/-- Distinct elements in first-occurrence order. -/
def dedupList {α : Type} [DecidableEq α] (l : List α) : List α := dedupAux [] l

/-- The significant words of a normalized name: split on spaces, keep words
longer than 2 characters, as a set (`fuzzyMatchEvent`, strategy 4). -/
def significantWords (norm : String) : List (List Char) :=
  dedupList ((splitChar ' ' norm.toList).filter (fun w => 2 < w.length))

/-- `Map.set` of the `eventsByName` lookup: JS `Map.set` updates an existing
key in place (keeping its position) and otherwise appends. -/
def mapSet (m : List (String × RankedEvent)) (k : String) (v : RankedEvent) :
    List (String × RankedEvent) :=
  if m.any (fun p => p.1 = k) then m.map (fun p => if p.1 = k then (k, v) else p)
  else m ++ [(k, v)]

/-- The `eventsByName` lookup built in Step 2 of `planItineraryTool.execute`:
ranked events keyed by lower-cased trimmed name, in insertion order. -/
def buildEventsByName (ranked : List RankedEvent) : List (String × RankedEvent) :=
  ranked.foldl (fun m r => mapSet m (trimStr (toLowerStr r.event.name)) r) []

/-- `fuzzyMatchEvent` (src/unnamed/part_006): exact key lookup, then
normalized exact match, then substring containment either direction, then
best word overlap of at least 60%. -/
def fuzzyMatchEvent (llmName : String) (m : List (String × RankedEvent)) :
    Option RankedEvent :=
  let llmNorm := normalizeText llmName
  match m.find? (fun p => p.1 = trimStr (toLowerStr llmName)) with
  | some p => some p.2
  | none =>
  match m.find? (fun p => normalizeText p.1 = llmNorm) with
  | some p => some p.2
  | none =>
  match m.find? (fun p =>
      strContains llmNorm (normalizeText p.1) || strContains (normalizeText p.1) llmNorm) with
  | some p => some p.2
  | none =>
    let llmWords := significantWords llmNorm
    (m.foldl (fun (acc : Option RankedEvent × Nat) p =>
        let keyWords := significantWords (normalizeText p.1)
        let overlap := (llmWords.filter (fun w => keyWords.contains w)).length
        let overlapRatio : ℚ :=
          (overlap : ℚ) / (max llmWords.length (max keyWords.length 1) : ℚ)
        if (6 : ℚ) / 10 ≤ overlapRatio ∧ acc.2 < overlap then (some p.2, overlap) else acc)
      (none, 0)).1

-- ── Item conversion (`convertLLMItemToItineraryItem`) ──

/-- Characters left unescaped by JS `encodeURIComponent`. -/
def isUriUnreserved (c : Char) : Bool :=
  c.isAlpha || c.isDigit || c = '-' || c = '_' || c = '.' || c = '!' ||
    c = '~' || c = '*' || c = apos || c = '(' || c = ')'

/-- Hex digit character (uppercase). -/
def hexDigitChar (n : Nat) : Char :=
  if n < 10 then Char.ofNat (48 + n) else Char.ofNat (55 + n)

/-- JS `encodeURIComponent`, for the ASCII range (multi-byte escaping of
non-ASCII codepoints is not modelled; the names involved are ASCII). -/
def encodeURIComponent (s : String) : String :=
  String.mk (s.toList.foldr
    (fun c acc =>
      (if isUriUnreserved c then [c]
       else ['%', hexDigitChar (c.toNat / 16 % 16), hexDigitChar (c.toNat % 16)]) ++ acc)
    [])

/-- The fallback Google-search source URL of a synthesized event. -/
def googleSearchUrl (name : String) : String :=
  "https://www.google.com/search?q=" ++ encodeURIComponent (name ++ " Singapore")

/-- An `ItineraryItem` (spec §3). -/
structure ItineraryItem where
  id : String
  event : Event
  scheduledTime : TimeSlot
  travelTimeFromPrevious : Option ℚ
  travelMode : Option String
  status : String
  notes : Option String
deriving DecidableEq, Repr

/-- An `Itinerary` (spec §3); `date` is the datetime value of `T00:00:00Z`
of the itinerary date. -/
structure Itinerary where
  id : String
  name : String
  date : Int
  items : List ItineraryItem
  totalCost : ℚ
  totalDuration : ℚ
  status : String
  createdAt : String
  updatedAt : String
deriving DecidableEq, Repr

/-- Item-cap enforcement `applyItemCap` (src/unnamed/part_006): under the
cap the items are untouched; otherwise keep all main events, fill the
remaining slots (`Math.max(0, …)` is truncated subtraction on `Nat`) with
complementary items in order, and re-sort by start time. -/
def applyItemCapItems (items : List LLMPlanItem) : List LLMPlanItem :=
  if items.length ≤ MAX_ITINERARY_ITEMS then items
  else
    let mainItems := items.filter (·.isMainEvent)
    let complementaryItems := items.filter (fun i => !i.isMainEvent)
    let trimmedItems :=
      mainItems ++ complementaryItems.take (MAX_ITINERARY_ITEMS - mainItems.length)
    sortByKey (fun i => parseTime i.startTime) trimmedItems

/-- The warning pushed by `applyItemCap` when it trims. -/
def applyItemCapWarnings (items : List LLMPlanItem) : List Warning :=
  if items.length ≤ MAX_ITINERARY_ITEMS then []
  else [.itemCap items.length MAX_ITINERARY_ITEMS]

/-- `item-${index}-${Date.now()}` with the run timestamp as a parameter. -/
def mkItemId (index : Nat) (now : String) : String :=
  "item-" ++ toString index ++ "-" ++ now

/-- The `actualStartTime` of `convertLLMItemToItineraryItem`: the real
event's SGT time for a matched main item, the draft's time otherwise. -/
def actualStartTime (item : LLMPlanItem) (matched : Option RankedEvent) : HHMM :=
  match matched with
  | some r => if item.isMainEvent then extractTimeFromISO r.event.timeSlot.start else item.startTime
  | none => item.startTime

/-- The `actualEndTime` of `convertLLMItemToItineraryItem`. -/
def actualEndTime (item : LLMPlanItem) (matched : Option RankedEvent) : HHMM :=
  match matched with
  | some r => if item.isMainEvent then extractTimeFromISO r.event.timeSlot.finish else item.endTime
  | none => item.endTime

/-- The `startDatetime`/`endDatetime` pair after the authoritative-time
override: the real event's slot for a matched main item, the datetimes
built from the draft's times otherwise. -/
def scheduledSlot (item : LLMPlanItem) (matched : Option RankedEvent) (dayStart : Int) :
    TimeSlot :=
  match matched with
  | some r =>
    if item.isMainEvent then r.event.timeSlot
    else ⟨buildDatetime dayStart item.startTime, buildDatetime dayStart item.endTime⟩
  | none => ⟨buildDatetime dayStart item.startTime, buildDatetime dayStart item.endTime⟩

/-- `item.travelFromPrevious?.durationMinutes ?? 0`. -/
def travelMinutesOf (item : LLMPlanItem) : ℚ :=
  match item.travelFromPrevious with
  | some t => t.durationMinutes
  | none => 0

/-- Travel mode of the converted item. -/
def travelModeOf (item : LLMPlanItem) : Option String :=
  match item.travelFromPrevious with
  | some t => mapTravelMode t.mode
  | none => none

/-- The `Event` object built by `convertLLMItemToItineraryItem`: the real
event when matched, otherwise an event synthesized from the draft item
(default Singapore coordinates, `discovered`/`planned` source by main flag). -/
def eventOf (item : LLMPlanItem) (index : Nat) (matched : Option RankedEvent)
    (dayStart : Int) (now : String) : Event :=
  match matched with
  | some r => r.event
  | none =>
    { id := "generated-" ++ toString index ++ "-" ++ now
      name := item.name
      description := item.description
      category := item.category
      location := ⟨item.location.name, item.location.address, (13521 : ℚ) / 10000, (1038198 : ℚ) / 10000⟩
      timeSlot := scheduledSlot item none dayStart
      price := some ⟨item.estimatedCostPerPerson, item.estimatedCostPerPerson, "SGD"⟩
      rating := none
      sourceUrl := some (match item.sourceUrl with | some u => u | none => googleSearchUrl item.name)
      source := if item.isMainEvent then "discovered" else "planned"
      imageUrl := none
      reviewCount := none
      availability := "unknown"
      bookingRequired := item.bookingRequired }

/-- The `notes` string assembled by `convertLLMItemToItineraryItem`
(JS truthiness: empty strings are not pushed). -/
def mkNotes (item : LLMPlanItem) (matched : Option RankedEvent)
    (ranked : List RankedEvent) : Option String :=
  let parts : List String :=
    (match item.vibeNotes with
     | some v => if v ≠ "" then [v] else []
     | none => []) ++
    (match item.travelFromPrevious with
     | some t => if t.description ≠ "" then ["Getting there: " ++ t.description] else []
     | none => []) ++
    (if item.priceCategory ≠ "" then ["Price tier: " ++ item.priceCategory] else []) ++
    (match matched with
     | some r => ["Ranked #" ++ toString (ranked.indexOf r + 1) ++ " (score: " ++ toString r.score ++ ")"]
     | none => [])
  if parts ≠ [] then some (String.intercalate " | " parts) else none

/-- The returned value of `convertLLMItemToItineraryItem` (src/unnamed/
part_006): `none` exactly when a non-main item ends past the hard cutoff;
otherwise the converted item and its end minutes.  The returned value does
not depend on the previous item, which only feeds the warnings
(`convertWarnings` below); the source computes both in one function. -/
def convertRes (item : LLMPlanItem) (index : Nat) (matched : Option RankedEvent)
    (dayStart : Int) (ranked : List RankedEvent) (now : String) :
    Option (ItineraryItem × Nat) :=
  let endMinutes := parseTime (actualEndTime item matched)
  if HARD_END_CUTOFF_MINUTES < endMinutes ∧ item.isMainEvent = false then none
  else
    some ({ id := mkItemId index now
            event := eventOf item index matched dayStart now
            scheduledTime := scheduledSlot item matched dayStart
            travelTimeFromPrevious :=
              if 0 < travelMinutesOf item then some (travelMinutesOf item) else none
            travelMode := travelModeOf item
            status := "planned"
            notes := mkNotes item matched ranked }, endMinutes)

/-- The warnings pushed by `convertLLMItemToItineraryItem`, in push order:
the authoritative-time-correction warning for a matched main item whose
draft times disagree with the real slot, then the transition/gap warnings
against the previous kept item, then the hard-cutoff warnings. -/
def convertWarnings (item : LLMPlanItem) (matched : Option RankedEvent)
    (prevEndMinutes : Option Nat) (prevName : Option String) : List Warning :=
  let realWs : List Warning :=
    match matched with
    | some r =>
      if item.isMainEvent ∧
          (item.startTime ≠ extractTimeFromISO r.event.timeSlot.start ∨
           item.endTime ≠ extractTimeFromISO r.event.timeSlot.finish) then
        [.timeCorrection item.name item.startTime item.endTime
          (extractTimeFromISO r.event.timeSlot.start) (extractTimeFromISO r.event.timeSlot.finish)]
      else []
    | none => []
  let startMinutes := parseTime (actualStartTime item matched)
  let gapWs : List Warning :=
    match prevEndMinutes with
    | none => []
    | some pe =>
      let gap : Int := (startMinutes : Int) - (pe : Int)
      if gap < 0 then [.timeOverlap prevName (formatTime pe) item.name (actualStartTime item matched)]
      else if gap < 5 ∧ 0 < travelMinutesOf item then
        [.tightTransition gap prevName item.name (travelMinutesOf item)]
      else if MAX_GAP_MINUTES < gap then
        [.excessiveGap gap prevName (formatTime pe) item.name (actualStartTime item matched)]
      else []
  let endMinutes := parseTime (actualEndTime item matched)
  let cutoffWs : List Warning :=
    if HARD_END_CUTOFF_MINUTES < endMinutes then
      if item.isMainEvent then [.mainPastCutoff item.name (actualEndTime item matched)]
      else [.droppedPastCutoff item.name (actualEndTime item matched)]
    else []
  realWs ++ gapWs ++ cutoffWs

/-- The match computed for a draft item in Step 3 of
`planItineraryTool.execute`: main items are fuzzy-matched, others never. -/
def matchedFor (eventsByName : List (String × RankedEvent)) (item : LLMPlanItem) :
    Option RankedEvent :=
  if item.isMainEvent then fuzzyMatchEvent item.name eventsByName else none

/-- Step 3 of `planItineraryTool.execute`: convert the capped draft items in
order, tracking the end minutes of the last kept item, collecting the kept
items, total per-person cost, total duration and warnings.  `allItems` is
the full capped item list (the source reads `plan.items[i - 1]?.name` for
the warning messages), `i` the index of the first item of `rest` in it. -/
def planGo (eventsByName : List (String × RankedEvent)) (dayStart : Int)
    (ranked : List RankedEvent) (now : String) (allItems : List LLMPlanItem) :
    Nat → List LLMPlanItem → Option Nat → (List ItineraryItem × ℚ × ℚ × List Warning)
  | _, [], _ => ([], 0, 0, [])
  | i, item :: rest, prevEnd =>
    let matched := matchedFor eventsByName item
    let unmatchedW : List Warning :=
      if item.isMainEvent ∧ matched = none then [.unmatchedMain item.name] else []
    let prevName : Option String :=
      if i = 0 then none else (allItems.get? (i - 1)).map (·.name)
    let ws := convertWarnings item matched prevEnd prevName
    match convertRes item i matched dayStart ranked now with
    | none =>
      let r := planGo eventsByName dayStart ranked now allItems (i + 1) rest prevEnd
      (r.1, r.2.1, r.2.2.1, unmatchedW ++ ws ++ r.2.2.2)
    | some (out, endM) =>
      let r := planGo eventsByName dayStart ranked now allItems (i + 1) rest (some endM)
      (out :: r.1, item.estimatedCostPerPerson + r.2.1,
        (item.durationMinutes + travelMinutesOf item) + r.2.2.1, unmatchedW ++ ws ++ r.2.2.2)

/-- The span warning of `validateTimeSequencing` (the sorting it performs is
applied by `planItinerary` below): warn when the chronological span from the
first activity's start to the last one's end exceeds 8 hours. -/
def spanWarnings (sorted : List ItineraryItem) : List Warning :=
  if sorted.length < 2 then []
  else
    match sorted.head?, sorted.getLast? with
    | some first, some last =>
      if MAX_PLAN_SPAN_HOURS * 60 < last.scheduledTime.finish - first.scheduledTime.start then
        [.planSpanTooLong]
      else []
    | _, _ => []

/-- `validateBudget` (src/unnamed/part_006); `1.2` is `12/10`. -/
def budgetWarnings (totalCostPerPerson : ℚ) (budgetMax : Option ℚ) : List Warning :=
  match budgetMax with
  | none => []
  | some b =>
    if b * ((12 : ℚ) / 10) < totalCostPerPerson then [.budgetOverrun totalCostPerPerson b]
    else if b < totalCostPerPerson then [.slightlyOverBudget totalCostPerPerson b]
    else []

/-- The `planMetadata` of the tool output. -/
structure PlanMetadata where
  itineraryName : String
  overallVibe : Option String
  practicalTips : Option (List String)
  weatherConsideration : Option String
  budgetStatus : String
  budgetNotes : Option String
  totalEstimatedCostPerPerson : ℚ
  itemCount : Nat
  mainEventCount : Nat
  generatedActivityCount : Nat
deriving DecidableEq, Repr

/-- The output of `planItineraryTool.execute`. -/
structure PlanOutput where
  itinerary : Itinerary
  planMetadata : PlanMetadata
  warnings : List Warning
deriving DecidableEq, Repr

/-- `planItineraryTool.execute` (src/unnamed/part_006) on an
already-validated plan (Step 1's schema validation is the typing of
`LLMPlan`; the validation-failure fallback path is not modelled).  The two
`Date.now()`/ISO timestamps are merged into the single parameter `now`. -/
def planItinerary (plan : LLMPlan) (ranked : List RankedEvent) (dayStart : Int)
    (budgetMax : Option ℚ) (partySize : ℚ) (now : String) : PlanOutput :=
  let eventsByName := buildEventsByName ranked
  let capW := applyItemCapWarnings plan.items
  let capped := applyItemCapItems plan.items
  let r := planGo eventsByName dayStart ranked now capped 0 capped none
  let totalCostPerPerson := r.2.1
  let sorted := sortByKey (fun it => it.scheduledTime.start) r.1
  let spanW := spanWarnings sorted
  let budW := budgetWarnings totalCostPerPerson budgetMax
  let mainEventCount := (sorted.filter (fun it => it.event.source ≠ "planned")).length
  { itinerary :=
      { id := "itinerary-" ++ now
        name := plan.itineraryName
        date := dayStart
        items := sorted
        totalCost := totalCostPerPerson * partySize
        totalDuration := r.2.2.1
        status := "draft"
        createdAt := now
        updatedAt := now }
    planMetadata :=
      { itineraryName := plan.itineraryName
        overallVibe := plan.overallVibe
        practicalTips := plan.practicalTips
        weatherConsideration := plan.weatherConsideration
        budgetStatus := plan.budgetStatus
        budgetNotes := plan.budgetNotes
        totalEstimatedCostPerPerson := totalCostPerPerson
        itemCount := sorted.length
        mainEventCount := mainEventCount
        generatedActivityCount := sorted.length - mainEventCount }
    warnings := capW ++ r.2.2.2 ++ spanW ++ budW }

-- ── Scheduler loop lemmas ──

theorem planGo_items_le (E : List (String × RankedEvent)) (d : Int)
    (R : List RankedEvent) (now : String) (all : List LLMPlanItem) :
    ∀ (rest : List LLMPlanItem) (i : Nat) (pe : Option Nat),
    (planGo E d R now all i rest pe).1.length ≤ rest.length := by
  intro rest
  induction rest with
  | nil => intro i pe; simp [planGo]
  | cons head tail ih =>
    intro i pe
    simp only [planGo]
    cases hc : convertRes head i (matchedFor E head) d R now with
    | none => simpa using Nat.le_succ_of_le (ih (i + 1) pe)
    | some p => simpa using Nat.succ_le_succ (ih (i + 1) (some p.2))

theorem planGo_mem (E : List (String × RankedEvent)) (d : Int)
    (R : List RankedEvent) (now : String) (all : List LLMPlanItem) :
    ∀ (rest : List LLMPlanItem) (i : Nat) (pe : Option Nat) (j : Nat)
      (item : LLMPlanItem) (o : ItineraryItem) (e : Nat),
    rest.get? j = some item →
    convertRes item (i + j) (matchedFor E item) d R now = some (o, e) →
    o ∈ (planGo E d R now all i rest pe).1 := by
  intro rest
  induction rest with
  | nil => intro i pe j item o e hget; simp at hget
  | cons head tail ih =>
    intro i pe j item o e hget hconv
    cases j with
    | zero =>
      obtain rfl : head = item := by simpa using hget
      rw [Nat.add_zero] at hconv
      simp only [planGo, hconv]
      exact List.mem_cons_self _ _
    | succ j' =>
      have hget' : tail.get? j' = some item := by simpa using hget
      have hconv' : convertRes item ((i + 1) + j') (matchedFor E item) d R now = some (o, e) := by
        rw [show (i + 1) + j' = i + (j' + 1) by omega]
        exact hconv
      simp only [planGo]
      cases hc : convertRes head i (matchedFor E head) d R now with
      | none => simpa using ih (i + 1) pe j' item o e hget' hconv'
      | some p => simpa using List.mem_cons_of_mem _ (ih (i + 1) (some p.2) j' item o e hget' hconv')

theorem planGo_warn_mem (E : List (String × RankedEvent)) (d : Int)
    (R : List RankedEvent) (now : String) (all : List LLMPlanItem) (w : Warning) :
    ∀ (rest : List LLMPlanItem) (i : Nat) (pe : Option Nat) (j : Nat) (item : LLMPlanItem),
    rest.get? j = some item →
    (∀ pe' pn', w ∈ convertWarnings item (matchedFor E item) pe' pn') →
    w ∈ (planGo E d R now all i rest pe).2.2.2 := by
  intro rest
  induction rest with
  | nil => intro i pe j item hget; simp at hget
  | cons head tail ih =>
    intro i pe j item hget hw
    cases j with
    | zero =>
      obtain rfl : head = item := by simpa using hget
      simp only [planGo]
      cases hc : convertRes head i (matchedFor E head) d R now with
      | none =>
        exact List.mem_append_left _ (List.mem_append_right _ (hw _ _))
      | some p =>
        exact List.mem_append_left _ (List.mem_append_right _ (hw _ _))
    | succ j' =>
      have hget' : tail.get? j' = some item := by simpa using hget
      simp only [planGo]
      cases hc : convertRes head i (matchedFor E head) d R now with
      | none =>
        exact List.mem_append_right _ (ih (i + 1) pe j' item hget' hw)
      | some p =>
        exact List.mem_append_right _ (ih (i + 1) (some p.2) j' item hget' hw)

/-- Membership glue: an item whose conversion succeeds lands in the final
(sorted) itinerary item list. -/
theorem mem_planItinerary_items (plan : LLMPlan) (ranked : List RankedEvent)
    (dayStart : Int) (budgetMax : Option ℚ) (partySize : ℚ) (now : String)
    (j : Nat) (item : LLMPlanItem) (o : ItineraryItem) (e : Nat)
    (hget : (applyItemCapItems plan.items).get? j = some item)
    (hconv : convertRes item j (matchedFor (buildEventsByName ranked) item) dayStart ranked now
      = some (o, e)) :
    o ∈ (planItinerary plan ranked dayStart budgetMax partySize now).itinerary.items := by
  simp only [planItinerary]
  rw [mem_sortByKey]
  exact planGo_mem _ _ _ _ _ _ 0 none j item o e hget (by simpa using hconv)

/-- Warning glue: a warning that `convertLLMItemToItineraryItem` emits for an
item regardless of the previous-item state is in the final warning list. -/
theorem mem_planItinerary_warnings (plan : LLMPlan) (ranked : List RankedEvent)
    (dayStart : Int) (budgetMax : Option ℚ) (partySize : ℚ) (now : String)
    (j : Nat) (item : LLMPlanItem) (w : Warning)
    (hget : (applyItemCapItems plan.items).get? j = some item)
    (hw : ∀ pe' pn', w ∈ convertWarnings item (matchedFor (buildEventsByName ranked) item) pe' pn') :
    w ∈ (planItinerary plan ranked dayStart budgetMax partySize now).warnings := by
  simp only [planItinerary]
  exact List.mem_append_left _ (List.mem_append_left _ (List.mem_append_right _
    (planGo_warn_mem _ _ _ _ _ w _ 0 none j item hget hw)))

-- ── C2 ──

/-- C2, amended.  The item cap keeps all main events and fills the remaining
slots with complementary items in their original order, re-sorted by start
time; the resulting itinerary has at most `max 4 m` items where `m` is the
number of draft items flagged as main events — the 4-item bound itself only
holds when at most 4 items are flagged as main. -/
theorem itinerary_item_cap (plan : LLMPlan) (ranked : List RankedEvent)
    (dayStart : Int) (budgetMax : Option ℚ) (partySize : ℚ) (now : String) :
    (planItinerary plan ranked dayStart budgetMax partySize now).itinerary.items.length
      ≤ max MAX_ITINERARY_ITEMS (plan.items.filter (·.isMainEvent)).length ∧
    (MAX_ITINERARY_ITEMS < plan.items.length →
      applyItemCapItems plan.items =
        sortByKey (fun i => parseTime i.startTime)
          ((plan.items.filter (·.isMainEvent)) ++
            (plan.items.filter (fun i => !i.isMainEvent)).take
              (MAX_ITINERARY_ITEMS - (plan.items.filter (·.isMainEvent)).length))) := by
  constructor
  · have hlen1 : (planItinerary plan ranked dayStart budgetMax partySize now).itinerary.items.length
        ≤ (applyItemCapItems plan.items).length := by
      simp only [planItinerary]
      rw [length_sortByKey]
      exact planGo_items_le _ _ _ _ _ _ 0 none
    have hlen2 : (applyItemCapItems plan.items).length
        ≤ max MAX_ITINERARY_ITEMS (plan.items.filter (·.isMainEvent)).length := by
      unfold applyItemCapItems
      split
      · exact le_max_of_le_left (by assumption)
      · rw [length_sortByKey, List.length_append, List.length_take]
        omega
    exact le_trans hlen1 hlen2
  · intro hgt
    unfold applyItemCapItems
    rw [if_neg (by omega)]

/-- Evaluation lemma: the conversion keeps an item whenever it is a main
event or ends at or before the hard cutoff. -/
theorem convertRes_some (item : LLMPlanItem) (j : Nat) (matched : Option RankedEvent)
    (dayStart : Int) (ranked : List RankedEvent) (now : String)
    (h : ¬(HARD_END_CUTOFF_MINUTES < parseTime (actualEndTime item matched) ∧
        item.isMainEvent = false)) :
    convertRes item j matched dayStart ranked now =
      some ({ id := mkItemId j now
              event := eventOf item j matched dayStart now
              scheduledTime := scheduledSlot item matched dayStart
              travelTimeFromPrevious :=
                if 0 < travelMinutesOf item then some (travelMinutesOf item) else none
              travelMode := travelModeOf item
              status := "planned"
              notes := mkNotes item matched ranked }, parseTime (actualEndTime item matched)) := by
  simp only [convertRes]
  rw [if_neg h]

-- ── C3 ──

/-- C3.  A draft item flagged as a main event that fuzzy-matches a ranked
discovered event produces an itinerary item whose `scheduledTime` is exactly
the real event's time slot (and whose embedded event is the real event),
irrespective of the draft's proposed start/end; and whenever the draft's
times disagree with the real SGT times, the time-correction warning is
recorded on the output. -/
theorem main_event_authoritative_time (plan : LLMPlan) (ranked : List RankedEvent)
    (dayStart : Int) (budgetMax : Option ℚ) (partySize : ℚ) (now : String)
    (j : Nat) (item : LLMPlanItem) (r : RankedEvent)
    (hget : (applyItemCapItems plan.items).get? j = some item)
    (hmain : item.isMainEvent = true)
    (hmatch : fuzzyMatchEvent item.name (buildEventsByName ranked) = some r) :
    (∃ o ∈ (planItinerary plan ranked dayStart budgetMax partySize now).itinerary.items,
      o.id = mkItemId j now ∧ o.event = r.event ∧ o.scheduledTime = r.event.timeSlot) ∧
    ((item.startTime ≠ extractTimeFromISO r.event.timeSlot.start ∨
      item.endTime ≠ extractTimeFromISO r.event.timeSlot.finish) →
      Warning.timeCorrection item.name item.startTime item.endTime
          (extractTimeFromISO r.event.timeSlot.start) (extractTimeFromISO r.event.timeSlot.finish)
        ∈ (planItinerary plan ranked dayStart budgetMax partySize now).warnings) := by
  have hm : matchedFor (buildEventsByName ranked) item = some r := by
    simp [matchedFor, hmain, hmatch]
  constructor
  · have hconv' : convertRes item j (matchedFor (buildEventsByName ranked) item)
        dayStart ranked now =
        some ({ id := mkItemId j now
                event := eventOf item j (some r) dayStart now
                scheduledTime := scheduledSlot item (some r) dayStart
                travelTimeFromPrevious :=
                  if 0 < travelMinutesOf item then some (travelMinutesOf item) else none
                travelMode := travelModeOf item
                status := "planned"
                notes := mkNotes item (some r) ranked }, parseTime (actualEndTime item (some r))) := by
      rw [hm]
      exact convertRes_some item j (some r) dayStart ranked now (by simp [hmain])
    refine ⟨_, mem_planItinerary_items plan ranked dayStart budgetMax partySize now j item _ _
      hget hconv', rfl, ?_, ?_⟩
    · simp [eventOf]
    · simp [scheduledSlot, hmain]
  · intro hd
    refine mem_planItinerary_warnings plan ranked dayStart budgetMax partySize now j item _
      hget ?_
    intro pe' pn'
    rw [hm]
    simp only [convertWarnings]
    rw [if_pos ⟨hmain, hd⟩]
    exact List.mem_append_left _ (List.mem_append_left _ (List.mem_singleton_self _))

-- ── C4 ──

/-- C4.  Hard 23:00 cutoff behaviour of the scheduler: a non-main draft item
ending after the cutoff is dropped (conversion yields `none`) and the drop
warning is recorded, a non-main item ending at or before the cutoff is kept
with a scheduled end no later than 23:00 SGT on the itinerary date, and a
main item is always kept — generating the past-cutoff warning when its
(possibly corrected) end exceeds the cutoff. -/
theorem scheduler_hard_cutoff (plan : LLMPlan) (ranked : List RankedEvent)
    (dayStart : Int) (budgetMax : Option ℚ) (partySize : ℚ) (now : String)
    (j : Nat) (item : LLMPlanItem)
    (hget : (applyItemCapItems plan.items).get? j = some item) :
    (item.isMainEvent = false →
      (HARD_END_CUTOFF_MINUTES < parseTime item.endTime →
        convertRes item j (matchedFor (buildEventsByName ranked) item) dayStart ranked now = none ∧
        Warning.droppedPastCutoff item.name item.endTime
          ∈ (planItinerary plan ranked dayStart budgetMax partySize now).warnings) ∧
      (parseTime item.endTime ≤ HARD_END_CUTOFF_MINUTES →
        ∃ o ∈ (planItinerary plan ranked dayStart budgetMax partySize now).itinerary.items,
          o.id = mkItemId j now ∧
          o.scheduledTime.finish = buildDatetime dayStart item.endTime ∧
          o.scheduledTime.finish ≤ buildDatetime dayStart ⟨23, 0⟩)) ∧
    (item.isMainEvent = true →
      ∃ p, convertRes item j (matchedFor (buildEventsByName ranked) item) dayStart ranked now
          = some p ∧
        p.1 ∈ (planItinerary plan ranked dayStart budgetMax partySize now).itinerary.items ∧
        (HARD_END_CUTOFF_MINUTES < p.2 →
          Warning.mainPastCutoff item.name
              (actualEndTime item (matchedFor (buildEventsByName ranked) item))
            ∈ (planItinerary plan ranked dayStart budgetMax partySize now).warnings)) := by
  constructor
  · intro hnm
    have hmnone : matchedFor (buildEventsByName ranked) item = none := by
      simp [matchedFor, hnm]
    have hend : actualEndTime item none = item.endTime := rfl
    constructor
    · intro hlate
      constructor
      · rw [hmnone]
        simp only [convertRes]
        rw [if_pos ⟨by rw [hend]; exact hlate, hnm⟩]
      · refine mem_planItinerary_warnings plan ranked dayStart budgetMax partySize now j item _
          hget ?_
        intro pe' pn'
        rw [hmnone]
        simp only [convertWarnings, hend]
        rw [if_pos hlate, if_neg (by simp [hnm])]
        exact List.mem_append_right _ (List.mem_singleton_self _)
    · intro hok
      have hconv' : convertRes item j (matchedFor (buildEventsByName ranked) item)
          dayStart ranked now =
          some ({ id := mkItemId j now
                  event := eventOf item j none dayStart now
                  scheduledTime := scheduledSlot item none dayStart
                  travelTimeFromPrevious :=
                    if 0 < travelMinutesOf item then some (travelMinutesOf item) else none
                  travelMode := travelModeOf item
                  status := "planned"
                  notes := mkNotes item none ranked }, parseTime (actualEndTime item none)) := by
        rw [hmnone]
        exact convertRes_some item j none dayStart ranked now (by rw [hend]; omega)
      refine ⟨_, mem_planItinerary_items plan ranked dayStart budgetMax partySize now j item _ _
        hget hconv', rfl, ?_, ?_⟩
      · simp [scheduledSlot]
      · have hok' : item.endTime.h * 60 + item.endTime.m ≤ 1380 := by
          simpa [parseTime, HARD_END_CUTOFF_MINUTES] using hok
        simp only [scheduledSlot, buildDatetime, parseTime, SGT_OFFSET_MINUTES]
        omega
  · intro hmain
    have hconv := convertRes_some item j (matchedFor (buildEventsByName ranked) item)
      dayStart ranked now (by simp [hmain])
    refine ⟨_, hconv, mem_planItinerary_items plan ranked dayStart budgetMax partySize now j item _ _
      hget hconv, ?_⟩
    intro hlate
    refine mem_planItinerary_warnings plan ranked dayStart budgetMax partySize now j item _
      hget ?_
    intro pe' pn'
    simp only [convertWarnings]
    rw [if_pos hlate, if_pos hmain]
    exact List.mem_append_right _ (List.mem_singleton_self _)

-- ── Concrete scheduler data for witnesses and counterexamples ──

/-- A minimal schema-valid draft item. -/
def mkDraftItem (nm : String) (main : Bool) (s e : HHMM) : LLMPlanItem :=
  { name := nm, description := "", category := "other", isMainEvent := main,
    startTime := s, endTime := e, durationMinutes := 60,
    location := ⟨"Somewhere", "1 Road", none⟩, estimatedCostPerPerson := 0,
    priceCategory := "moderate", travelFromPrevious := none, vibeNotes := none,
    bookingRequired := false, sourceUrl := none }

/-- A minimal schema-valid draft plan. -/
def mkDraftPlan (items : List LLMPlanItem) : LLMPlan :=
  { itineraryName := "Plan", items := items, totalEstimatedCostPerPerson := 0,
    budgetStatus := "within_budget", budgetNotes := none, overallVibe := none,
    practicalTips := none, weatherConsideration := none }

/-- A draft plan with five main-event items: the item cap keeps all of them. -/
def capCexPlan : LLMPlan := mkDraftPlan
  [mkDraftItem "m1" true ⟨10, 0⟩ ⟨11, 0⟩,
   mkDraftItem "m2" true ⟨11, 0⟩ ⟨12, 0⟩,
   mkDraftItem "m3" true ⟨12, 0⟩ ⟨13, 0⟩,
   mkDraftItem "m4" true ⟨13, 0⟩ ⟨14, 0⟩,
   mkDraftItem "m5" true ⟨14, 0⟩ ⟨15, 0⟩]

/-- The spec §8 example shape: six items, two of them main events. -/
def capWitnessPlan : LLMPlan := mkDraftPlan
  [mkDraftItem "c1" false ⟨9, 0⟩ ⟨10, 0⟩,
   mkDraftItem "m1" true ⟨10, 0⟩ ⟨11, 0⟩,
   mkDraftItem "c2" false ⟨11, 0⟩ ⟨12, 0⟩,
   mkDraftItem "c3" false ⟨12, 0⟩ ⟨13, 0⟩,
   mkDraftItem "m2" true ⟨14, 0⟩ ⟨15, 0⟩,
   mkDraftItem "c4" false ⟨15, 0⟩ ⟨16, 0⟩]

section DecideEval2

attribute [local semireducible] Rat.mul Rat.inv Rat.add Rat.sub Rat.ofScientific

/-- C2 counterexample: a valid draft with five main-event items yields a
five-item itinerary — the scheduler's output exceeds 4 items. -/
theorem itinerary_item_cap_cex :
    MAX_ITINERARY_ITEMS < capCexPlan.items.length ∧
    (planItinerary capCexPlan [] 0 none 1 "t").itinerary.items.length = 5 := by
  decide

/-- Witness for the amended C2 theorem at the 6-item (2 main) example. -/
theorem itinerary_item_cap_witness :
    (planItinerary capWitnessPlan [] 0 none 1 "t").itinerary.items.length
      ≤ max MAX_ITINERARY_ITEMS (capWitnessPlan.items.filter (·.isMainEvent)).length ∧
    applyItemCapItems capWitnessPlan.items =
      sortByKey (fun i => parseTime i.startTime)
        ((capWitnessPlan.items.filter (·.isMainEvent)) ++
          (capWitnessPlan.items.filter (fun i => !i.isMainEvent)).take
            (MAX_ITINERARY_ITEMS - (capWitnessPlan.items.filter (·.isMainEvent)).length)) :=
  ⟨(itinerary_item_cap capWitnessPlan [] 0 none 1 "t").1,
   (itinerary_item_cap capWitnessPlan [] 0 none 1 "t").2 (by decide)⟩

/-- A ranked discovered event whose real slot is 19:00–21:00 SGT
(11:00–13:00 UTC on epoch day 0). -/
def jazzEvent : Event :=
  { id := "ev1", name := "Jazz Night", description := "", category := "music",
    location := ⟨"Hall", "2 Ave", 0, 0⟩, timeSlot := ⟨660, 780⟩, price := none,
    rating := none, sourceUrl := some "https://example.com/jazz", source := "eventbrite",
    imageUrl := none, reviewCount := none, availability := "available",
    bookingRequired := true }

def jazzRanked : RankedEvent := ⟨jazzEvent, 1, none⟩

/-- A main draft item naming the jazz event but proposing 10:00–11:00. -/
def jazzItem : LLMPlanItem := mkDraftItem "Jazz Night" true ⟨10, 0⟩ ⟨11, 0⟩

def jazzPlan : LLMPlan := mkDraftPlan [jazzItem]

/-- Witness for C3: the matched main item is scheduled at the real event's
slot and the draft-time discrepancy is warned. -/
theorem main_event_authoritative_time_witness :
    (∃ o ∈ (planItinerary jazzPlan [jazzRanked] 0 none 1 "t").itinerary.items,
      o.id = mkItemId 0 "t" ∧ o.event = jazzRanked.event ∧
      o.scheduledTime = jazzRanked.event.timeSlot) ∧
    Warning.timeCorrection jazzItem.name jazzItem.startTime jazzItem.endTime
        (extractTimeFromISO jazzRanked.event.timeSlot.start)
        (extractTimeFromISO jazzRanked.event.timeSlot.finish)
      ∈ (planItinerary jazzPlan [jazzRanked] 0 none 1 "t").warnings := by
  have h := main_event_authoritative_time jazzPlan [jazzRanked] 0 none 1 "t" 0 jazzItem
    jazzRanked (by decide) (by decide) (by decide)
  exact ⟨h.1, h.2 (by decide)⟩

def cutOkItem : LLMPlanItem := mkDraftItem "c ok" false ⟨10, 0⟩ ⟨11, 0⟩
def cutLateItem : LLMPlanItem := mkDraftItem "c late" false ⟨22, 0⟩ ⟨23, 30⟩
def cutMainItem : LLMPlanItem := mkDraftItem "c main" true ⟨20, 0⟩ ⟨23, 30⟩

def cutoffPlan : LLMPlan := mkDraftPlan [cutOkItem, cutLateItem, cutMainItem]

/-- Witness for C4: a non-main item ending 23:30 is dropped with a warning,
a non-main item ending 11:00 is kept before the cutoff, and a main item
ending 23:30 is kept with the past-cutoff warning. -/
theorem scheduler_hard_cutoff_witness :
    (convertRes cutLateItem 1 (matchedFor (buildEventsByName []) cutLateItem) 0 [] "t" = none ∧
      Warning.droppedPastCutoff cutLateItem.name cutLateItem.endTime
        ∈ (planItinerary cutoffPlan [] 0 none 1 "t").warnings) ∧
    (∃ o ∈ (planItinerary cutoffPlan [] 0 none 1 "t").itinerary.items,
      o.id = mkItemId 0 "t" ∧
      o.scheduledTime.finish = buildDatetime 0 cutOkItem.endTime ∧
      o.scheduledTime.finish ≤ buildDatetime 0 ⟨23, 0⟩) ∧
    (∃ p, convertRes cutMainItem 2 (matchedFor (buildEventsByName []) cutMainItem) 0 [] "t"
        = some p ∧
      p.1 ∈ (planItinerary cutoffPlan [] 0 none 1 "t").itinerary.items ∧
      (HARD_END_CUTOFF_MINUTES < p.2 →
        Warning.mainPastCutoff cutMainItem.name
            (actualEndTime cutMainItem (matchedFor (buildEventsByName []) cutMainItem))
          ∈ (planItinerary cutoffPlan [] 0 none 1 "t").warnings)) := by
  have h0 := scheduler_hard_cutoff cutoffPlan [] 0 none 1 "t" 0 cutOkItem (by decide)
  have h1 := scheduler_hard_cutoff cutoffPlan [] 0 none 1 "t" 1 cutLateItem (by decide)
  have h2 := scheduler_hard_cutoff cutoffPlan [] 0 none 1 "t" 2 cutMainItem (by decide)
  exact ⟨(h1.1 (by decide)).1 (by decide), (h0.1 (by decide)).2 (by decide), h2.2 (by decide)⟩

end DecideEval2

-- ============================================
-- Approval gate and execution step
-- (src/src/mastra/workflows/steps/approval.step.ts, execution.step.ts)
-- ============================================

/-- `BookingResult` (src/src/mastra/tools/execute-booking.ts); `actionType`
and `status` are closed string enums. -/
structure BookingResult where
  eventId : String
  eventName : String
  actionType : String
  status : String
  confirmationNumber : Option String
  screenshotPath : Option String
  error : Option String
  timestamp : String
deriving DecidableEq, Repr

/-- Ranking filter statistics. -/
structure FilterStats where
  totalInput : Nat
  passedFilters : Nat
  finalCount : Nat
deriving DecidableEq, Repr

/-- Dedup statistics threaded through the pipeline. -/
structure DedupStats where
  originalCount : Nat
  deduplicatedCount : Nat
  removedCount : Nat
deriving DecidableEq, Repr

/-- The record threaded between the approval and execution steps (the
`inputData` fields of `awaitApproval`/`executeBookings`); an absent JS field
(`undefined`) is `none`. -/
structure PipelineData where
  events : List Event
  rankedEvents : Option (List RankedEvent)
  filterStats : Option FilterStats
  dedupStats : Option DedupStats
  intentSummary : Option String
  agentReasoning : Option String
  recommendationNarrative : Option String
  itinerary : Option Itinerary
  planMetadata : Option PlanMetadata
  planWarnings : Option (List Warning)
  bookingResults : Option (List BookingResult)
deriving DecidableEq, Repr

/-- Outcome of one `executeBookingTool.execute` call as observed by the
execution step's loop: the tool threw, returned a validation error (no
`eventId` field), or returned a booking result.  The tool call's other
arguments (party size, user profile, timestamps) are absorbed into this
oracle. -/
inductive BookOutcome where
  | threw (msg : String)
  | invalid
  | ok (r : BookingResult)
deriving DecidableEq, Repr

/-- The bookable-item filter of `executeBookings` (execution.step.ts line
76): a real (non-`planned`) event source and a truthy source URL that is
non-empty after trimming. -/
def bookablePred (it : ItineraryItem) : Bool :=
  it.event.source ≠ "planned" &&
    (match it.event.sourceUrl with
     | some s => s ≠ "" && trimStr s ≠ ""
     | none => false)

/-- The booking result recorded for one item by the loop body of
`executeBookings`: the catch branch and the validation-error branch push a
`failed` record, the normal branch copies the tool's result fields. -/
def bookResultFor (oracle : ItineraryItem → BookOutcome) (ts : String)
    (it : ItineraryItem) : BookingResult :=
  match oracle it with
  | .threw msg =>
    ⟨it.event.id, it.event.name, "book", "failed", none, none, some msg, ts⟩
  | .invalid =>
    ⟨it.event.id, it.event.name, "book", "failed", none, none,
      some "Tool returned validation error", ts⟩
  | .ok r =>
    ⟨r.eventId, r.eventName, r.actionType, r.status, r.confirmationNumber,
      r.screenshotPath, r.error, r.timestamp⟩

/-- The sequential booking loop of `executeBookings` (execution.step.ts
lines 149–258): one result is pushed per bookable item, in order. -/
def bookLoop (oracle : ItineraryItem → BookOutcome) (ts : String) :
    List ItineraryItem → List BookingResult
  | [] => []
  | it :: rest => bookResultFor oracle ts it :: bookLoop oracle ts rest

/-- `executeBookings` (execution.step.ts): pass through when there is no
itinerary or it has no items; report an empty result list when no item is
bookable; otherwise run the loop over the bookable items.  The second
component counts the booking attempts performed. -/
def executeBookings (oracle : ItineraryItem → BookOutcome) (ts : String)
    (input : PipelineData) : PipelineData × Nat :=
  match input.itinerary with
  | none => (input, 0)
  | some itin =>
    if itin.items.isEmpty then (input, 0)
    else
      let bookableItems := itin.items.filter bookablePred
      if bookableItems.isEmpty then ({ input with bookingResults := some [] }, 0)
      else
        ({ input with bookingResults := some (bookLoop oracle ts bookableItems) },
          bookableItems.length)

/-- `awaitApproval` (approval.step.ts) given the resolved gate decision:
without an itinerary the data passes through; on approval the data passes
through with the itinerary intact; on rejection the itinerary and metadata
are discarded and the rejection warning is recorded.  All branches leave
`bookingResults` unset. -/
def awaitApproval (approved : Bool) (input : PipelineData) : PipelineData :=
  match input.itinerary with
  | none => { input with bookingResults := none }
  | some _ =>
    if approved then { input with bookingResults := none }
    else
      { input with
        itinerary := none
        planMetadata := none
        planWarnings := some [.planRejected]
        bookingResults := none }

theorem bookLoop_eq_map (oracle : ItineraryItem → BookOutcome) (ts : String) :
    ∀ (l : List ItineraryItem), bookLoop oracle ts l = l.map (bookResultFor oracle ts) := by
  intro l
  induction l with
  | nil => rfl
  | cons it rest ih => simp [bookLoop, ih]

/-- The execution step attempts exactly the bookable items. -/
theorem executeBookings_count (oracle : ItineraryItem → BookOutcome) (ts : String)
    (input : PipelineData) (itin : Itinerary) (hitin : input.itinerary = some itin) :
    (executeBookings oracle ts input).2 = (itin.items.filter bookablePred).length := by
  unfold executeBookings
  rw [hitin]
  dsimp only
  by_cases hemp : itin.items.isEmpty
  · rw [if_pos hemp]
    rw [List.isEmpty_iff] at hemp
    simp [hemp]
  · rw [if_neg hemp]
    by_cases hb : (itin.items.filter bookablePred).isEmpty
    · rw [if_pos hb]
      rw [List.isEmpty_iff] at hb
      simp [hb]
    · rw [if_neg hb]

-- ── C5 ──

/-- C5.  When an itinerary with items is present, the execution step
produces exactly one booking result per bookable item (non-`planned` source
and non-empty source URL), in order; the result list is the pointwise image
of the bookable items under the per-item result function, so the outcome
recorded for item `k` — including the `failed` records produced for thrown
errors — depends only on item `k` and never prevents items `k+1..n` from
being attempted. -/
theorem execution_one_result_per_bookable (oracle : ItineraryItem → BookOutcome)
    (ts : String) (input : PipelineData) (itin : Itinerary)
    (hitin : input.itinerary = some itin) (hne : itin.items ≠ []) :
    (executeBookings oracle ts input).1.bookingResults
        = some ((itin.items.filter bookablePred).map (bookResultFor oracle ts)) ∧
    (executeBookings oracle ts input).2 = (itin.items.filter bookablePred).length ∧
    (∀ k : Nat, ((itin.items.filter bookablePred).map (bookResultFor oracle ts))[k]?
        = ((itin.items.filter bookablePred)[k]?).map (bookResultFor oracle ts)) := by
  refine ⟨?_, executeBookings_count oracle ts input itin hitin, fun k => List.getElem?_map _ _ _⟩
  unfold executeBookings
  rw [hitin]
  dsimp only
  have hemp : itin.items.isEmpty = false := by
    simp [List.isEmpty_iff, hne]
  rw [if_neg (by simp [hemp])]
  by_cases hb : (itin.items.filter bookablePred).isEmpty
  · rw [if_pos hb]
    rw [List.isEmpty_iff] at hb
    simp [hb]
  · rw [if_neg hb]
    simp [bookLoop_eq_map]

-- ── C7 ──

/-- C7.  When the approval gate resolves with rejection, the approval step
discards the itinerary and plan metadata, records the `Plan rejected by
user` warning, and the execution step then performs zero booking attempts
and records no booking results; when the gate resolves with approval, the
itinerary passes through intact and the execution step attempts exactly the
bookable items. -/
theorem approval_gate_controls_execution (oracle : ItineraryItem → BookOutcome)
    (ts : String) (input : PipelineData) (itin : Itinerary)
    (h : input.itinerary = some itin) :
    (awaitApproval false input).itinerary = none ∧
    (awaitApproval false input).planWarnings = some [Warning.planRejected] ∧
    (executeBookings oracle ts (awaitApproval false input)).2 = 0 ∧
    (executeBookings oracle ts (awaitApproval false input)).1.bookingResults = none ∧
    (awaitApproval true input).itinerary = some itin ∧
    (executeBookings oracle ts (awaitApproval true input)).2
        = (itin.items.filter bookablePred).length := by
  have happ : (awaitApproval true input).itinerary = some itin := by
    unfold awaitApproval
    rw [h]
    exact congrArg some rfl
  have hrej : awaitApproval false input =
      { input with
        itinerary := none
        planMetadata := none
        planWarnings := some [.planRejected]
        bookingResults := none } := by
    unfold awaitApproval
    rw [h]
    rfl
  refine ⟨by rw [hrej], by rw [hrej], ?_, ?_, happ, executeBookings_count oracle ts _ itin happ⟩
  · rw [hrej]
    rfl
  · rw [hrej]
    rfl

-- ── Concrete execution data for witnesses ──

def bookEvent (idStr nm src : String) (url : Option String) : Event :=
  { id := idStr, name := nm, description := "", category := "other",
    location := ⟨"", "", 0, 0⟩, timeSlot := ⟨0, 60⟩, price := none, rating := none,
    sourceUrl := url, source := src, imageUrl := none, reviewCount := none,
    availability := "available", bookingRequired := true }

def bookItem (idStr nm src : String) (url : Option String) : ItineraryItem :=
  { id := idStr, event := bookEvent idStr nm src url, scheduledTime := ⟨0, 60⟩,
    travelTimeFromPrevious := none, travelMode := none, status := "planned", notes := none }

/-- A three-item itinerary: one generated (`planned`) activity and two
bookable real events. -/
def witItinerary : Itinerary :=
  { id := "it1", name := "I", date := 0,
    items := [bookItem "p1" "generated" "planned" none,
              bookItem "b1" "one" "eventbrite" (some "https://a"),
              bookItem "b2" "two" "eventfinda" (some "https://b")],
    totalCost := 0, totalDuration := 0, status := "draft", createdAt := "t",
    updatedAt := "t" }

def witPipeline : PipelineData :=
  { events := [], rankedEvents := none, filterStats := none, dedupStats := none,
    intentSummary := none, agentReasoning := none, recommendationNarrative := none,
    itinerary := some witItinerary, planMetadata := none, planWarnings := none,
    bookingResults := none }

/-- An oracle on which the first bookable item's tool call throws and the
second succeeds. -/
def witOracle : ItineraryItem → BookOutcome := fun it =>
  if it.id = "b1" then .threw "boom"
  else .ok ⟨"b2", "two", "book", "success", some "123", none, none, "ts"⟩

/-- Witness for C5 at a concrete itinerary whose first bookable item throws:
the result list still has one entry per bookable item. -/
theorem execution_one_result_per_bookable_witness :
    (executeBookings witOracle "ts" witPipeline).1.bookingResults
        = some ((witItinerary.items.filter bookablePred).map (bookResultFor witOracle "ts")) ∧
    (executeBookings witOracle "ts" witPipeline).2
        = (witItinerary.items.filter bookablePred).length ∧
    (∀ k : Nat, ((witItinerary.items.filter bookablePred).map (bookResultFor witOracle "ts"))[k]?
        = ((witItinerary.items.filter bookablePred)[k]?).map (bookResultFor witOracle "ts")) :=
  execution_one_result_per_bookable witOracle "ts" witPipeline witItinerary rfl (by decide)

/-- Witness for C7 at the same concrete pipeline data. -/
theorem approval_gate_controls_execution_witness :
    (awaitApproval false witPipeline).itinerary = none ∧
    (awaitApproval false witPipeline).planWarnings = some [Warning.planRejected] ∧
    (executeBookings witOracle "ts" (awaitApproval false witPipeline)).2 = 0 ∧
    (executeBookings witOracle "ts" (awaitApproval false witPipeline)).1.bookingResults = none ∧
    (awaitApproval true witPipeline).itinerary = some witItinerary ∧
    (executeBookings witOracle "ts" (awaitApproval true witPipeline)).2
        = (witItinerary.items.filter bookablePred).length :=
  approval_gate_controls_execution witOracle "ts" witPipeline witItinerary rfl

-- ============================================
-- Booking confirmation extraction (src/src/mastra/tools/execute-booking.ts)
-- ============================================

/-- The success phrases recognized by `extractConfirmation` (lines 508–519),
matched against the lower-cased page text. -/
def successPhrases : List String :=
  ["thanks for your order", "your order is confirmed",
   "you" ++ String.singleton apos ++ "re going",
   "registration confirmed", "successfully registered", "take me to my tickets"]

/-- Leftmost match of the Eventbrite order-number pattern `#(\d{8,15})`:
the first `#` followed by at least 8 digits; the capture takes greedily up
to 15 of them. -/
def scanOrderNumber : List Char → Option String
  | [] => none
  | c :: rest =>
    if c = '#' then
      let ds := rest.takeWhile Char.isDigit
      if 8 ≤ ds.length then some (String.mk (ds.take 15))
      else scanOrderNumber rest
    else scanOrderNumber rest

/-- Case-insensitive literal consumption (regex `/i` flag). -/
def consumeCI : List Char → List Char → Option (List Char)
  | [], rest => some rest
  | _ :: _, [] => none
  | p :: ps, c :: rest => if p.toLower = c.toLower then consumeCI ps rest else none

/-- `[A-Z0-9]` under `/i`. -/
def isConfAlnum (c : Char) : Bool := c.isAlpha || c.isDigit

/-- The tail `\s*:?\s*([A-Z0-9][A-Z0-9-]{3,19})` of the confirmation
pattern: optional whitespace, optional colon, more optional whitespace,
then an alphanumeric character and greedily 3 to 19 more
alphanumeric-or-dash characters. -/
def captureAfterSep (cs : List Char) : Option String :=
  let s1 := cs.dropWhile isWsChar
  let s2 := match s1 with
    | c :: t => if c = ':' then t.dropWhile isWsChar else s1
    | [] => s1
  match s2 with
  | c :: t =>
    if isConfAlnum c then
      let more := (t.takeWhile (fun d => isConfAlnum d || d = '-')).take 19
      if 3 ≤ more.length then some (String.mk (c :: more)) else none
    else none
  | [] => none

/-- `\s*(?:#|number|no\.?|id|:)` followed by the capture tail, trying the
alternatives in the regex's order (with the optional dot of `no\.?` matched
greedily first, backtracking to the dotless form). -/
def trySeparators (cs : List Char) : Option String :=
  let afterWs := cs.dropWhile isWsChar
  (match afterWs with
   | '#' :: t => captureAfterSep t
   | _ => none) <|>
  (consumeCI ['n', 'u', 'm', 'b', 'e', 'r'] afterWs >>= captureAfterSep) <|>
  (match consumeCI ['n', 'o'] afterWs with
   | some ('.' :: t2) => captureAfterSep t2 <|> captureAfterSep ('.' :: t2)
   | some t => captureAfterSep t
   | none => none) <|>
  (consumeCI ['i', 'd'] afterWs >>= captureAfterSep) <|>
  (match afterWs with
   | ':' :: t => captureAfterSep t
   | _ => none)

/-- The keyword alternatives `confirmation|order|booking|reference|ticket`
(pairwise non-overlapping first letters, so at most one can match at a
given position). -/
def confKeywords : List (List Char) :=
  [['c','o','n','f','i','r','m','a','t','i','o','n'],
   ['o','r','d','e','r'],
   ['b','o','o','k','i','n','g'],
   ['r','e','f','e','r','e','n','c','e'],
   ['t','i','c','k','e','t']]

/-- Leftmost match of the generic confirmation pattern
`(?:confirmation|order|booking|reference|ticket)\s*(?:#|number|no\.?|id|:)\s*:?\s*([A-Z0-9][A-Z0-9-]{3,19})`
(case-insensitive), returning the capture. -/
def scanConfirmPattern : List Char → Option String
  | [] => none
  | c :: rest =>
    match confKeywords.findSome? (fun kw => consumeCI kw (c :: rest) >>= trySeparators) with
    | some r => some r
    | none => scanConfirmPattern rest

/-- `extractConfirmation` (execute-booking.ts lines 472–522) on the combined
page text (main document plus iframes): the order-number pattern, then the
keyword-adjacent confirmation number guarded against purely-alphabetic
captures (`/^[a-z]+$/i`), then the success phrases mapped to the
`CONFIRMED` sentinel. -/
def extractConfirmation (pageText : String) : Option String :=
  if pageText = "" then none
  else
    match scanOrderNumber pageText.toList with
    | some d => some d
    | none =>
      let phraseResult : Option String :=
        if successPhrases.any (fun p => strContains (toLowerStr pageText) p) then
          some "CONFIRMED"
        else none
      match scanConfirmPattern pageText.toList with
      | some cap => if cap.toList.all Char.isAlpha then phraseResult else some cap
      | none => phraseResult

/-- The final-status determination of `executeBookingTool.execute` (lines
781–800): status is `success` exactly when a confirmation was extracted;
the checkout loop's own outcome (`submitted`) does not influence it. -/
def bookingFinalize (eventId eventName : String) (pageText : String)
    (_submitted : Bool) (screenshotPath timestamp : String) : BookingResult :=
  let confirmationNumber := extractConfirmation pageText
  { eventId := eventId, eventName := eventName, actionType := "book",
    status := if confirmationNumber.isSome then "success" else "failed",
    confirmationNumber := confirmationNumber,
    screenshotPath := some screenshotPath, error := none, timestamp := timestamp }

-- ── C6 ──

/-- C6.  For every booking attempt reaching the confirmation-extraction
stage, the returned status is `success` if and only if
`extractConfirmation` found an explicit confirmation signal on the page
(order-number pattern, keyword-adjacent confirmation number, or a success
phrase mapped to the `CONFIRMED` sentinel); otherwise it is `failed` — for
every value of the checkout-loop outcome flag. -/
theorem booking_success_iff_confirmation (eventId eventName pageText : String)
    (submitted : Bool) (screenshotPath timestamp : String) :
    ((bookingFinalize eventId eventName pageText submitted screenshotPath timestamp).status
        = "success" ↔ (extractConfirmation pageText).isSome = true) ∧
    ((extractConfirmation pageText) = none →
      (bookingFinalize eventId eventName pageText submitted screenshotPath timestamp).status
        = "failed") ∧
    (bookingFinalize eventId eventName pageText submitted screenshotPath timestamp).confirmationNumber
        = extractConfirmation pageText := by
  simp only [bookingFinalize]
  cases hc : extractConfirmation pageText with
  | none => exact ⟨by decide, fun _ => rfl, trivial⟩
  | some v => exact ⟨by simp, ⟨fun h => Option.noConfusion h, trivial⟩⟩

/-- Witness for C6: a page with no confirmation signal yields `failed` even
though the checkout loop reported completion, and a page carrying a success
phrase yields `success`. -/
theorem booking_success_iff_confirmation_witness :
    (bookingFinalize "e" "n" "Checkout complete. All steps done." true "s.png" "ts").status
        = "failed" ∧
    (bookingFinalize "e" "n" "Thanks for your order!" true "s.png" "ts").status
        = "success" :=
  ⟨(booking_success_iff_confirmation "e" "n" "Checkout complete. All steps done."
      true "s.png" "ts").2.1 (by decide),
   (booking_success_iff_confirmation "e" "n" "Thanks for your order!"
      true "s.png" "ts").1.mpr (by decide)⟩

-- ============================================
-- Discovery HTTP retry layer (`fetchWithRetry`, src/unnamed/part_005)
-- ============================================

/-- The outcome of one `fetch` call: an HTTP response with a status code
and an optional numeric `Retry-After` header (in seconds), or a network
error. -/
inductive FetchOutcome where
  | status (code : Nat) (retryAfter : Option Nat)
  | netErr (msg : String)
deriving DecidableEq, Repr

/-- `response.ok`: status in the 2xx range. -/
def responseOk (c : Nat) : Bool := 200 ≤ c && c < 300

/-- How a `fetchWithRetry` run ends: a successful response (recording the
attempt index), the immediate throw on a non-retryable client status, the
rethrow of the last network error after exhaustion, or the generic
exhaustion error when no network error was recorded. -/
inductive FetchResult where
  | success (attempt : Nat)
  | clientError (code : Nat)
  | netFailure (msg : String)
  | exhausted
deriving DecidableEq, Repr

/-- Observable trace of a `fetchWithRetry` run: its result, the number of
`fetch` calls made, and the sleep durations (ms) in order. -/
structure FetchTrace where
  result : FetchResult
  calls : Nat
  waits : List Nat
deriving DecidableEq, Repr

/-- `MAX_RETRIES` (src/unnamed/part_005). -/
def MAX_RETRIES : Nat := 3

/-- `BASE_DELAY_MS` (src/unnamed/part_005). -/
def BASE_DELAY_MS : Nat := 1100

/-- Exponential backoff `BASE_DELAY_MS * 2 ** attempt`. -/
def backoff (attempt : Nat) : Nat := BASE_DELAY_MS * 2 ^ attempt

/-- The throw after the loop exhausts: the recorded last network error, or
the generic `HTTP request failed after retries` error. -/
def afterLoopResult (lastError : Option String) : FetchResult :=
  match lastError with
  | some m => .netFailure m
  | none => .exhausted

/-- The 429 wait: the server's Retry-After hint (seconds × 1000) when
present, the exponential backoff otherwise. -/
def retryAfterWait (ra : Option Nat) (attempt : Nat) : Nat :=
  match ra with
  | some s => s * 1000
  | none => backoff attempt

/-- The loop of `fetchWithRetry` (src/unnamed/part_005 lines 24–65), from a
given attempt index, driven by an oracle giving each attempt's outcome:
2xx returns; 429 sleeps per the Retry-After hint (seconds × 1000) or the
backoff, then continues; 5xx sleeps the backoff and continues; any other
status throws immediately (the catch block rethrows it); a network error
records itself as `lastError`, sleeps only when attempts remain, and
continues; after the loop the last network error (or the generic message)
is thrown. -/
def fetchGo (oracle : Nat → FetchOutcome) (retries attempt : Nat)
    (lastError : Option String) : FetchTrace :=
  if attempt ≤ retries then
    match oracle attempt with
    | .status c ra =>
      if responseOk c then ⟨.success attempt, 1, []⟩
      else if c = 429 then
        let waitMs := retryAfterWait ra attempt
        let rest := fetchGo oracle retries (attempt + 1) lastError
        ⟨rest.result, rest.calls + 1, waitMs :: rest.waits⟩
      else if 500 ≤ c then
        let rest := fetchGo oracle retries (attempt + 1) lastError
        ⟨rest.result, rest.calls + 1, backoff attempt :: rest.waits⟩
      else ⟨.clientError c, 1, []⟩
    | .netErr msg =>
      if attempt < retries then
        let rest := fetchGo oracle retries (attempt + 1) (some msg)
        ⟨rest.result, rest.calls + 1, backoff attempt :: rest.waits⟩
      else ⟨.netFailure msg, 1, []⟩
  else ⟨afterLoopResult lastError, 0, []⟩
termination_by retries + 1 - attempt
decreasing_by all_goals omega

/-- `fetchWithRetry` with the default `MAX_RETRIES` kept explicit. -/
def fetchWithRetry (oracle : Nat → FetchOutcome) (retries : Nat) : FetchTrace :=
  fetchGo oracle retries 0 none

/-- Retryable outcomes: rate limit, server error, or network error. -/
def retryableB : FetchOutcome → Bool
  | .status c _ => c == 429 || 500 ≤ c
  | .netErr _ => true

/-- The sleep performed after a retryable outcome at a given attempt:
the Retry-After hint (× 1000) for a hinted 429, the exponential backoff
otherwise. -/
def waitFor (o : FetchOutcome) (attempt : Nat) : Nat :=
  match o with
  | .status c ra => if c = 429 then retryAfterWait ra attempt else backoff attempt
  | .netErr _ => backoff attempt

theorem retryable_not_ok {c : Nat} {ra : Option Nat}
    (h : retryableB (.status c ra) = true) : responseOk c = false := by
  simp only [retryableB, Bool.or_eq_true, beq_iff_eq, decide_eq_true_eq] at h
  simp only [responseOk, Bool.and_eq_false_iff, decide_eq_false_iff_not]
  right
  omega

/-- Unrolling lemma: a prefix of retryable outcomes contributes one call and
the specified wait per attempt, then the run continues (with some recorded
last error). -/
theorem fetchGo_prefix (oracle : Nat → FetchOutcome) (retries : Nat) :
    ∀ (k a : Nat) (le : Option String),
    (∀ j, j < k → retryableB (oracle (a + j)) = true) → a + k ≤ retries →
    ∃ le', (fetchGo oracle retries a le).result = (fetchGo oracle retries (a + k) le').result ∧
      (fetchGo oracle retries a le).calls = k + (fetchGo oracle retries (a + k) le').calls ∧
      (fetchGo oracle retries a le).waits =
        (List.range k).map (fun j => waitFor (oracle (a + j)) (a + j))
          ++ (fetchGo oracle retries (a + k) le').waits := by
  intro k
  induction k with
  | zero =>
    intro a le _ _
    exact ⟨le, by simp, by simp, by simp⟩
  | succ k ih =>
    intro a le hret hle
    have ha : a ≤ retries := by omega
    have hr0 : retryableB (oracle a) = true := by simpa using hret 0 (by omega)
    have hshift : ∀ j, j < k → retryableB (oracle ((a + 1) + j)) = true := by
      intro j hj
      have := hret (j + 1) (by omega)
      simpa [Nat.add_assoc, Nat.add_comm 1 j] using this
    have hle' : (a + 1) + k ≤ retries := by omega
    have hrange : (List.range (k + 1)).map (fun j => waitFor (oracle (a + j)) (a + j)) =
        waitFor (oracle a) a ::
          (List.range k).map (fun j => waitFor (oracle ((a + 1) + j)) ((a + 1) + j)) := by
      rw [List.range_succ_eq_map, List.map_cons, List.map_map]
      refine congrArg₂ _ (by simp) (List.map_congr_left ?_)
      intro j _
      simp [Function.comp, Nat.add_assoc, Nat.add_comm 1 j]
    have hstep : a + (k + 1) = (a + 1) + k := by omega
    cases ho : oracle a with
    | status c ra =>
      have hnok : responseOk c = false := retryable_not_ok (ho ▸ hr0)
      by_cases h429 : c = 429
      · have hwf : waitFor (oracle a) a = retryAfterWait ra a := by
          rw [ho]
          simp [waitFor, h429]
        have hred : fetchGo oracle retries a le =
            ⟨(fetchGo oracle retries (a + 1) le).result,
             (fetchGo oracle retries (a + 1) le).calls + 1,
             retryAfterWait ra a :: (fetchGo oracle retries (a + 1) le).waits⟩ := by
          rw [fetchGo.eq_def, if_pos ha, ho]
          dsimp only
          rw [if_neg (by simp [hnok]), if_pos h429]
        obtain ⟨le', h1, h2, h3⟩ := ih (a + 1) le hshift hle'
        refine ⟨le', ?_, ?_, ?_⟩
        · rw [hred, hstep]
          exact h1
        · rw [hred, hstep]
          dsimp only
          omega
        · rw [hred, hrange, hstep, hwf]
          dsimp only
          rw [h3, List.cons_append]
      · have h5xx : 500 ≤ c := by
          have hx := ho ▸ hr0
          simp only [retryableB, Bool.or_eq_true, beq_iff_eq, decide_eq_true_eq] at hx
          rcases hx with hx | hx
          · exact absurd hx h429
          · exact hx
        have hwf : waitFor (oracle a) a = backoff a := by
          rw [ho]
          simp [waitFor, h429]
        have hred : fetchGo oracle retries a le =
            ⟨(fetchGo oracle retries (a + 1) le).result,
             (fetchGo oracle retries (a + 1) le).calls + 1,
             backoff a :: (fetchGo oracle retries (a + 1) le).waits⟩ := by
          rw [fetchGo.eq_def, if_pos ha, ho]
          dsimp only
          rw [if_neg (by simp [hnok]), if_neg h429, if_pos h5xx]
        obtain ⟨le', h1, h2, h3⟩ := ih (a + 1) le hshift hle'
        refine ⟨le', ?_, ?_, ?_⟩
        · rw [hred, hstep]
          exact h1
        · rw [hred, hstep]
          dsimp only
          omega
        · rw [hred, hrange, hstep, hwf]
          dsimp only
          rw [h3, List.cons_append]
    | netErr msg =>
      have halt : a < retries := by omega
      have hwf : waitFor (oracle a) a = backoff a := by
        rw [ho]
        simp [waitFor]
      have hred : fetchGo oracle retries a le =
          ⟨(fetchGo oracle retries (a + 1) (some msg)).result,
           (fetchGo oracle retries (a + 1) (some msg)).calls + 1,
           backoff a :: (fetchGo oracle retries (a + 1) (some msg)).waits⟩ := by
        rw [fetchGo.eq_def, if_pos ha, ho]
        dsimp only
        rw [if_pos halt]
      obtain ⟨le', h1, h2, h3⟩ := ih (a + 1) (some msg) hshift hle'
      refine ⟨le', ?_, ?_, ?_⟩
      · rw [hred, hstep]
        exact h1
      · rw [hred, hstep]
        dsimp only
        omega
      · rw [hred, hrange, hstep, hwf]
        dsimp only
        rw [h3, List.cons_append]

theorem fetchGo_calls_le (oracle : Nat → FetchOutcome) (retries : Nat) :
    ∀ (n a : Nat) (le : Option String), retries + 1 - a ≤ n →
    (fetchGo oracle retries a le).calls ≤ retries + 1 - a := by
  intro n
  induction n with
  | zero =>
    intro a le hn
    rw [fetchGo.eq_def, if_neg (by omega)]
    simp
  | succ n ih =>
    intro a le hn
    by_cases ha : a ≤ retries
    · have hnext : retries + 1 - (a + 1) ≤ n := by omega
      rw [fetchGo.eq_def, if_pos ha]
      cases ho : oracle a with
      | status c ra =>
        dsimp only
        by_cases hok : responseOk c = true
        · rw [if_pos hok]
          dsimp only
          omega
        · rw [if_neg hok]
          by_cases h429 : c = 429
          · rw [if_pos h429]
            dsimp only
            have := ih (a + 1) le hnext
            omega
          · rw [if_neg h429]
            by_cases h5 : 500 ≤ c
            · rw [if_pos h5]
              dsimp only
              have := ih (a + 1) le hnext
              omega
            · rw [if_neg h5]
              dsimp only
              omega
      | netErr msg =>
        dsimp only
        by_cases halt : a < retries
        · rw [if_pos halt]
          dsimp only
          have := ih (a + 1) (some msg) hnext
          omega
        · rw [if_neg halt]
          dsimp only
          omega
    · rw [fetchGo.eq_def, if_neg ha]
      simp

-- ── C8 ──

/-- C8, amended.  The retry wrapper makes at most `MAX_RETRIES + 1 = 4`
fetch attempts (the loop runs `attempt = 0..MAX_RETRIES` inclusive, so "3"
is the retry count, not the attempt count); along a prefix of retryable
outcomes it sleeps per the server's Retry-After hint for hinted rate-limit
responses and per exponential backoff for unhinted 429s, 5xx responses and
network errors; and the first non-retryable non-2xx status below 500 throws
immediately with no further attempts. -/
theorem fetch_retry_policy (oracle : Nat → FetchOutcome) :
    (fetchWithRetry oracle MAX_RETRIES).calls ≤ MAX_RETRIES + 1 ∧
    (∀ k c ra, k ≤ MAX_RETRIES → (∀ j, j < k → retryableB (oracle j) = true) →
      oracle k = .status c ra → responseOk c = false → c ≠ 429 → c < 500 →
      (fetchWithRetry oracle MAX_RETRIES).result = .clientError c ∧
      (fetchWithRetry oracle MAX_RETRIES).calls = k + 1) ∧
    (∀ k, k ≤ MAX_RETRIES → (∀ j, j < k → retryableB (oracle j) = true) →
      (fetchWithRetry oracle MAX_RETRIES).waits.take k =
        (List.range k).map (fun j => waitFor (oracle j) j)) := by
  refine ⟨fetchGo_calls_le oracle MAX_RETRIES (MAX_RETRIES + 1) 0 none (by omega), ?_, ?_⟩
  · intro k c ra hk hret ho hnok h429 h5
    obtain ⟨le', h1, h2, _⟩ := fetchGo_prefix oracle MAX_RETRIES k 0 none
      (by simpa using hret) (by omega)
    have htail : (fetchGo oracle MAX_RETRIES k le').result = .clientError c ∧
        (fetchGo oracle MAX_RETRIES k le').calls = 1 := by
      have hred : fetchGo oracle MAX_RETRIES k le' = ⟨.clientError c, 1, []⟩ := by
        rw [fetchGo.eq_def, if_pos hk, ho]
        dsimp only
        rw [if_neg (by simp [hnok]), if_neg h429, if_neg (by omega : ¬500 ≤ c)]
      rw [hred]
      exact ⟨rfl, rfl⟩
    constructor
    · rw [fetchWithRetry]
      simpa [htail.1] using h1
    · rw [fetchWithRetry]
      simp only [Nat.zero_add] at h2
      omega
  · intro k hk hret
    obtain ⟨le', _, _, h3⟩ := fetchGo_prefix oracle MAX_RETRIES k 0 none
      (by simpa using hret) (by omega)
    rw [fetchWithRetry]
    simp only [Nat.zero_add] at h3
    rw [h3, List.take_left' (by simp)]

/-- C8 counterexample: with every response a 500, the wrapper performs 4
fetch calls (`MAX_RETRIES = 3` bounds the retries, not the attempts), not 3. -/
theorem fetch_retry_attempts_cex :
    MAX_RETRIES = 3 ∧
    (fetchWithRetry (fun _ => FetchOutcome.status 500 none) MAX_RETRIES).calls = 4 := by
  refine ⟨rfl, ?_⟩
  have hstep : ∀ (a : Nat) (le : Option String), a ≤ 3 →
      fetchGo (fun _ => FetchOutcome.status 500 none) 3 a le =
        ⟨(fetchGo (fun _ => FetchOutcome.status 500 none) 3 (a + 1) le).result,
         (fetchGo (fun _ => FetchOutcome.status 500 none) 3 (a + 1) le).calls + 1,
         backoff a :: (fetchGo (fun _ => FetchOutcome.status 500 none) 3 (a + 1) le).waits⟩ := by
    intro a le ha
    rw [fetchGo.eq_def, if_pos ha]
    dsimp only
    rw [if_neg (by simp [responseOk]), if_neg (by omega), if_pos (by omega)]
  have hend : ∀ le : Option String,
      fetchGo (fun _ => FetchOutcome.status 500 none) 3 4 le = ⟨afterLoopResult le, 0, []⟩ := by
    intro le
    rw [fetchGo.eq_def, if_neg (by omega)]
  show (fetchGo (fun _ => FetchOutcome.status 500 none) 3 0 none).calls = 4
  rw [hstep 0 none (by omega)]
  dsimp only
  rw [hstep 1 none (by omega)]
  dsimp only
  rw [hstep 2 none (by omega)]
  dsimp only
  rw [hstep 3 none (by omega)]
  dsimp only
  rw [hend none]

/-- A concrete oracle: a hinted rate limit, then a network error, then a 404. -/
def witFetchOracle : Nat → FetchOutcome := fun n =>
  if n = 0 then .status 429 (some 7)
  else if n = 1 then .netErr "conn reset"
  else .status 404 none

/-- Witness for the amended C8 theorem: after a hinted 429 (7000 ms wait)
and a network error (2200 ms backoff), the 404 on the third call throws
immediately — 3 calls in total. -/
theorem fetch_retry_policy_witness :
    (fetchWithRetry witFetchOracle MAX_RETRIES).calls ≤ MAX_RETRIES + 1 ∧
    ((fetchWithRetry witFetchOracle MAX_RETRIES).result = .clientError 404 ∧
      (fetchWithRetry witFetchOracle MAX_RETRIES).calls = 2 + 1) ∧
    (fetchWithRetry witFetchOracle MAX_RETRIES).waits.take 2 =
      (List.range 2).map (fun j => waitFor (witFetchOracle j) j) := by
  have h := fetch_retry_policy witFetchOracle
  exact ⟨h.1,
    h.2.1 2 404 none (by decide) (by decide) rfl (by decide) (by omega) (by omega),
    h.2.2 2 (by decide) (by decide)⟩

-- ============================================
-- Discovery merge step (src/src/mastra/workflows/steps/discovery.step.ts)
-- ============================================

/-- The hard-coded injected event of `mergeAndDeduplicateEvents`
(discovery.step.ts lines 99–120).  The time slot `2026-03-07T12:00:00+08:00`
– `2026-03-07T20:00:00+08:00` is 29547600–29548080 in minutes since epoch
UTC; `4.5` is `9/2`. -/
def hallyuConEvent : Event :=
  { id := "inject_hallyucon_mar26"
    name := "HallyuCon Mar " ++ String.singleton apos ++ "26"
    description := "The ultimate Korean pop culture convention — K-pop, K-drama, Korean beauty, fashion, and food all in one place. Over 70 vendors, live stage performances, Random Play Dance, and more. Free RSVP gives entry on both days."
    category := "cultural"
    location :=
      { name := "Suntec Singapore Convention & Exhibition Centre, Hall 404"
        address := "1 Raffles Blvd, Suntec City, Singapore 039593"
        lat := (12932 : ℚ) / 10000
        lng := (1038573 : ℚ) / 10000 }
    timeSlot := ⟨29547600, 29548080⟩
    price := some ⟨0, 0, "SGD"⟩
    rating := some ((9 : ℚ) / 2)
    sourceUrl := some "https://www.eventbrite.sg/e/hallyucon-mar-26-rsvp-registration-tickets-1978865860057"
    source := "eventbrite"
    imageUrl := none
    reviewCount := none
    availability := "available"
    bookingRequired := true }

/-- Output of the discovery merge step relevant to the pipeline. -/
structure MergeOut where
  events : List Event
  dedupStats : DedupStats
deriving DecidableEq, Repr

/-- `mergeAndDeduplicateEvents` (discovery.step.ts lines 65–125): concatenate
the two sources' results, deduplicate, then append the HallyuCon event
unless an event with its id or source URL is already present. -/
def mergeAndDeduplicateEvents (ebEvents efEvents : List Event) : MergeOut :=
  let rawEvents := ebEvents ++ efEvents
  let dedupResult := deduplicateEventsTool rawEvents
  let allEvents := dedupResult.events
  let events :=
    if allEvents.any (fun e =>
        decide (e.id = hallyuConEvent.id) || decide (e.sourceUrl = hallyuConEvent.sourceUrl)) then
      allEvents
    else allEvents ++ [hallyuConEvent]
  { events := events
    dedupStats := ⟨dedupResult.originalCount, dedupResult.deduplicatedCount,
      dedupResult.removedCount⟩ }

-- ── C9 ──

/-- C9.  The discovery merge step appends the hard-coded HallyuCon event to
the deduplicated list whenever no event with its id or source URL is
already present; consequently its output list is never empty, and on two
empty source results it consists of exactly the injected event — an event
returned by no configured source. -/
theorem discovery_injects_hallyucon (ebEvents efEvents : List Event) :
    (mergeAndDeduplicateEvents ebEvents efEvents).events ≠ [] ∧
    ((deduplicateEventsTool (ebEvents ++ efEvents)).events.any (fun e =>
        decide (e.id = hallyuConEvent.id) || decide (e.sourceUrl = hallyuConEvent.sourceUrl))
          = false →
      (mergeAndDeduplicateEvents ebEvents efEvents).events
        = (deduplicateEventsTool (ebEvents ++ efEvents)).events ++ [hallyuConEvent]) ∧
    (mergeAndDeduplicateEvents [] []).events = [hallyuConEvent] := by
  refine ⟨?_, ?_, rfl⟩
  · unfold mergeAndDeduplicateEvents
    dsimp only
    by_cases h : (deduplicateEventsTool (ebEvents ++ efEvents)).events.any (fun e =>
        decide (e.id = hallyuConEvent.id) || decide (e.sourceUrl = hallyuConEvent.sourceUrl))
    · rw [if_pos h]
      obtain ⟨x, hx, _⟩ := List.any_eq_true.mp h
      exact List.ne_nil_of_mem hx
    · rw [if_neg h]
      simp
  · intro h
    unfold mergeAndDeduplicateEvents
    dsimp only
    rw [if_neg (by simp [h])]

/-- Witness for C9: with both sources empty, the output is exactly the
injected HallyuCon event. -/
theorem discovery_injects_hallyucon_witness :
    (mergeAndDeduplicateEvents [] []).events ≠ [] ∧
    (mergeAndDeduplicateEvents [] []).events
      = (deduplicateEventsTool (([] : List Event) ++ [])).events ++ [hallyuConEvent] :=
  ⟨(discovery_injects_hallyucon [] []).1,
   (discovery_injects_hallyucon [] []).2.1 (by decide)⟩

-- ============================================
-- Ranking step truncation (rankAndRecommend, intent.step.ts lines 381–400)
-- ============================================

/-- The ranking tool's output shape. -/
structure RankOut where
  rankedEvents : List RankedEvent
  filterStats : FilterStats
deriving DecidableEq, Repr

/-- Modelled from the spec: the ranking tool `rankEventsTool` is not among
the provided sources (only its caller `rankAndRecommend` and prompts are).
Spec §4.2: phase 1 hard-filters out events that are sold out (unless
explicitly allowed), whose category is excluded, or whose minimum price
exceeds the budget ceiling; phase 2 scores the survivors and sorts them
descending by score (stable).  The scoring function is a parameter, since
its exact formula does not affect the claims settled against this model. -/
def rankEventsModel (score : Event → ℚ) (events : List Event) (budgetMax : Option ℚ)
    (excludedCategories : List String) (allowSoldOut : Bool) : RankOut :=
  let survivors := events.filter (fun e =>
    (allowSoldOut || decide (e.availability ≠ "sold_out")) &&
    !(excludedCategories.contains e.category) &&
    (match budgetMax, e.price with
     | some b, some p => decide (p.min ≤ b)
     | _, _ => true))
  let ranked := sortByKey (fun r => -r.score) (survivors.map (fun e => ⟨e, score e, none⟩))
  { rankedEvents := ranked
    filterStats := ⟨events.length, survivors.length, ranked.length⟩ }

/-- The `rankedEvents` value returned by `rankAndRecommend` as a function of
the ranking tool's outcome (intent.step.ts): `undefined` when the tool
failed, otherwise `rankedEvents.slice(0, 1)` (line 381: `const top3 =
rankedEvents.slice(0, 1)`). -/
def rankStepRanked (res : Except String RankOut) : Option (List RankedEvent) :=
  match res with
  | .error _ => none
  | .ok r => some (r.rankedEvents.take 1)

-- ── C10 ──

/-- C10, amended.  Whenever the ranking tool succeeds, the ranking step
returns the tool's ranked list truncated to its first element: the result
has at most one entry, and exactly one — the highest-ranked event —
whenever the tool's ranked list is non-empty.  (When the hard filter leaves
no survivors the tool's list, and hence the step's result, is empty.) -/
theorem ranking_truncates_to_at_most_one (out : RankOut) :
    rankStepRanked (.ok out) = some (out.rankedEvents.take 1) ∧
    (∀ l, rankStepRanked (.ok out) = some l →
      l.length ≤ 1 ∧ (out.rankedEvents ≠ [] → l.length = 1)) := by
  refine ⟨rfl, ?_⟩
  intro l hl
  obtain rfl : out.rankedEvents.take 1 = l := by
    simpa [rankStepRanked] using hl
  constructor
  · rw [List.length_take]
    omega
  · intro hne
    rw [List.length_take]
    have := List.length_pos.mpr hne
    omega

/-- Witness for C10: on a single available event the (spec-modelled) tool
ranks one event and the step keeps exactly that one. -/
theorem ranking_truncates_witness :
    rankStepRanked (.ok (rankEventsModel (fun _ => 1) [jazzEvent] none [] false))
      = some ((rankEventsModel (fun _ => 1) [jazzEvent] none [] false).rankedEvents.take 1) ∧
    ((rankEventsModel (fun _ => 1) [jazzEvent] none [] false).rankedEvents.take 1).length = 1 := by
  have h := ranking_truncates_to_at_most_one
    (rankEventsModel (fun _ => 1) [jazzEvent] none [] false)
  exact ⟨h.1, (h.2 _ h.1).2 (by decide)⟩

/-- An event dropped by the spec's hard filter. -/
def soldOutEvent : Event :=
  { id := "so1", name := "Sold Out Show", description := "", category := "music",
    location := ⟨"", "", 0, 0⟩, timeSlot := ⟨0, 60⟩, price := none, rating := none,
    sourceUrl := some "https://example.com/so", source := "eventbrite",
    imageUrl := none, reviewCount := none, availability := "sold_out",
    bookingRequired := true }

/-- C10 counterexample: on a non-empty event list whose only event is sold
out, the (spec-modelled) tool succeeds with an empty ranked list, and the
step returns a zero-element — not a one-element — array. -/
theorem ranking_zero_results_cex :
    rankStepRanked (.ok (rankEventsModel (fun _ => 0) [soldOutEvent] none [] false))
        = some [] ∧
    (rankEventsModel (fun _ => 0) [soldOutEvent] none [] false).filterStats.totalInput = 1 ∧
    (some ([] : List RankedEvent)).map List.length ≠ some 1 := by
  exact ⟨rfl, rfl, by decide⟩

end Orchestrator
